import Mathlib

/-!
Verification development for the HeySeen document-reconstruction core.

This file shallowly embeds the two core modules of the repository —
`heyseen/core/table_recognizer.py` (table grid reconstruction, validation and
markup rendering) and `heyseen/core/tex_builder.py` (block classification,
paragraph assembly, semantic refinement and text escaping) — as executable
Lean definitions, and proves properties of them.

Modelling conventions:
* Python floats are modelled as `ℚ` (all arithmetic in the embedded code is
  exact comparison/addition/min/max/division, no rounding behaviour matters).
* Python `str` is modelled as `List Char`; `.strip()`, `.replace`,
  `str.lower()` etc. are defined below.  Character classes (`isalpha`,
  `isupper`, `\w`, case folding) are modelled for the ASCII range, which
  covers every string handled in the theorems below.
* Python `list.sort(key=...)` is a stable sort; it is modelled by a stable
  insertion sort `pySortBy` (stable sorts by a total preorder agree on all
  inputs, so this is observationally the same function).
* Fallible operations (the external OCR callback, Python list indexing) are
  modelled with `Except`/`Option`.
-/

-- Core marks basic `Rat` arithmetic `@[irreducible]`, which blocks `decide`
-- on closed rational computations; lift that so concrete evaluations of the
-- embedded functions reduce.
unseal Rat.add Rat.mul Rat.sub Rat.inv

namespace HeySeen

/-! ## Generic helpers -/

/-- Python truthiness for optional strings (`None` and `""` are falsy). -/
def strTruthy : Option String → Bool
  | none => false
  | some s => !(s.isEmpty)

/-- Python truthiness for optional numbers (`None` and `0.0` are falsy). -/
def numTruthy : Option ℚ → Bool
  | none => false
  | some x => x ≠ 0

/-- Stable insertion of `a` into a list: `a` goes before the first element it
compares `le` to.  Used to model Python's stable `list.sort`. -/
def stableInsert (le : α → α → Bool) (a : α) : List α → List α
  | [] => [a]
  | b :: bs => if le a b then a :: b :: bs else b :: stableInsert le a bs

/-- Stable sort modelling Python `list.sort(key=...)`. -/
def pySortBy (le : α → α → Bool) : List α → List α
  | [] => []
  | a :: as => stableInsert le a (pySortBy le as)

/-- Python `min` over a nonempty list (`0` on `[]`, unreachable in the code). -/
def listMin : List Nat → Nat
  | [] => 0
  | x :: xs => xs.foldl Nat.min x

/-- Python `max` over a nonempty list (`0` on `[]`, unreachable in the code). -/
def listMax : List Nat → Nat
  | [] => 0
  | x :: xs => xs.foldl Nat.max x

/-! ## String helpers (over `List Char`) -/

/-- ASCII whitespace test as used by Python `str.strip`/`\s` on our inputs. -/
def isSpaceChar (c : Char) : Bool :=
  c = ' ' || c = '\t' || c = '\n' || c = '\x0d' || c = '\x0c' || c = '\x0b'

/-- Python `str.strip()`. -/
def pyStrip (s : List Char) : List Char :=
  ((s.dropWhile isSpaceChar).reverse.dropWhile isSpaceChar).reverse

/-- ASCII-range model of Python's case folding. -/
def lowerChar (c : Char) : Char := c.toLower

/-- Case-insensitive character comparison (ASCII range). -/
def eqIC (a b : Char) : Bool := lowerChar a = lowerChar b

/-- Python `\w` word-character test (ASCII range). -/
def isWordChar (c : Char) : Bool := c.isAlphanum || c = '_'

/-- Python `str.replace` for a single-character needle. -/
def replaceChar (c : Char) (rep : List Char) (s : List Char) : List Char :=
  s.flatMap (fun x => if x = c then rep else [x])

/-- Python `str.replace` for a multi-character needle: left-to-right,
non-overlapping (structural fuel recursion; each step consumes at least one
character, so fuel `s.length` is always sufficient).  The needle is nonempty
at every call site. -/
def replaceSubstrAux (pat rep : List Char) : Nat → List Char → List Char
  | 0, s => s
  | _ + 1, [] => []
  | fuel + 1, c :: rest =>
    if pat ≠ [] ∧ pat.isPrefixOf (c :: rest) then
      rep ++ replaceSubstrAux pat rep fuel ((c :: rest).drop pat.length)
    else
      c :: replaceSubstrAux pat rep fuel rest

/-- Python `str.replace`. -/
def replaceSubstr (pat rep s : List Char) : List Char :=
  replaceSubstrAux pat rep s.length s

/-- Substring occurrence test (Python `pat in s`). -/
def containsSub (pat : List Char) : List Char → Bool
  | [] => pat.isEmpty
  | c :: rest => pat.isPrefixOf (c :: rest) || containsSub pat rest

/-! ## Geometry (`table_recognizer.py`: `_overlap_y`, `_overlap_x`,
`_is_contained`, `_is_same_box`) -/

/-- `[x0, y0, x1, y1]` bounding box, coordinates as exact rationals. -/
structure Box where
  x0 : ℚ
  y0 : ℚ
  x1 : ℚ
  y1 : ℚ
  deriving DecidableEq, Repr

/-- `_overlap_y`: vertical overlap ratio relative to the smaller box. -/
def overlapY (box1 box2 : Box) : ℚ :=
  let y0 := max box1.y0 box2.y0
  let y1 := min box1.y1 box2.y1
  if y1 ≤ y0 then 0
  else
    let h1 := box1.y1 - box1.y0
    let h2 := box2.y1 - box2.y0
    (y1 - y0) / min h1 h2

/-- `_overlap_x`: horizontal overlap ratio relative to the smaller box. -/
def overlapX (box1 box2 : Box) : ℚ :=
  let x0 := max box1.x0 box2.x0
  let x1 := min box1.x1 box2.x1
  if x1 ≤ x0 then 0
  else
    let w1 := box1.x1 - box1.x0
    let w2 := box2.x1 - box2.x0
    (x1 - x0) / min w1 w2

/-- `_is_contained` with the default `threshold=0.5` used at every call site. -/
def isContained (box container : Box) : Bool :=
  let x0 := max box.x0 container.x0
  let y0 := max box.y0 container.y0
  let x1 := min box.x1 container.x1
  let y1 := min box.y1 container.y1
  if x1 ≤ x0 ∨ y1 ≤ y0 then false
  else
    let interArea := (x1 - x0) * (y1 - y0)
    let boxArea := (box.x1 - box.x0) * (box.y1 - box.y0)
    if boxArea ≤ 0 then false
    else decide (interArea / boxArea > 1/2)

/-- `_is_same_box` with the default `thr=2.0` used at every call site. -/
def isSameBox (b1 b2 : Box) : Bool :=
  |b1.x0 - b2.x0| < 2 ∧ |b1.y0 - b2.y0| < 2 ∧ |b1.x1 - b2.x1| < 2 ∧ |b1.y1 - b2.y1| < 2

/-! ## Table structure recognition (`_detect_tables`)

The external detector's raw output is a list of labelled, scored boxes
(`DetectedRegion` in the spec); the TATR model itself is out of scope. -/

/-- The five object kinds of the detector (`id2label` values). -/
inductive DetLabel
  | table
  | tableRow
  | tableRowHeader
  | tableColumn
  | tableSpanningCell
  deriving DecidableEq, Repr

/-- One raw detection: box, kind, confidence score. -/
structure Det where
  box : Box
  label : DetLabel
  score : ℚ
  deriving DecidableEq, Repr

/-- `TableCell` dataclass.  Every cell built by `_detect_tables` carries
explicit nonnegative indices and spans, so `Nat` models the `int` fields
(the dataclass defaults `-1` are never observed). -/
structure TableCell where
  bbox : Box
  row_idx : Nat
  col_idx : Nat
  row_span : Nat
  col_span : Nat
  content : String
  is_header : Bool
  deriving DecidableEq, Repr

/-- The five accumulator lists of the object-collection loop. -/
structure Collected where
  tables : List Box
  rows : List Box
  headerRows : List Box
  cols : List Box
  spans : List Box
  deriving DecidableEq, Repr

/-- One iteration of the collection loop: standard objects below score 0.5
are skipped (this includes spanning cells — the code comment reads
"Spanning cells might have lower confidence, but let's trust > 0.5"). -/
def collectStep (st : Collected) (d : Det) : Collected :=
  if d.score < 1/2 then st
  else
    match d.label with
    | .table => { st with tables := st.tables ++ [d.box] }
    | .tableRow => { st with rows := st.rows ++ [d.box] }
    | .tableRowHeader =>
        { st with rows := st.rows ++ [d.box], headerRows := st.headerRows ++ [d.box] }
    | .tableColumn => { st with cols := st.cols ++ [d.box] }
    | .tableSpanningCell => { st with spans := st.spans ++ [d.box] }

/-- Collection of all detections for one page: `post_process_object_detection`
keeps results with score strictly above its `threshold=0.1`, then the loop
drops everything below 0.5. -/
def collectDets (dets : List Det) : Collected :=
  (dets.filter (fun d => decide ((1:ℚ)/10 < d.score))).foldl collectStep ⟨[], [], [], [], []⟩

/-- Sort key for rows: vertical center. -/
def rowLeKey (a b : Box) : Bool := decide ((a.y0 + a.y1) / 2 ≤ (b.y0 + b.y1) / 2)

/-- Sort key for columns: horizontal center. -/
def colLeKey (a b : Box) : Bool := decide ((a.x0 + a.x1) / 2 ≤ (b.x0 + b.x1) / 2)

/-- Sort key for table boxes: top edge. -/
def topLeKey (a b : Box) : Bool := decide (a.y0 ≤ b.y0)

/-- Row-clustering walk of the no-table-box fallback: a new cluster starts at
row `i` when `gap > 1.5 * (height of row i-1)` **or** `gap > 50`. -/
def clusterWalk (prev : Box) (cur : List Box) (acc : List (List Box)) :
    List Box → List (List Box)
  | [] => acc ++ [cur]
  | r :: rs =>
    let gap := r.y0 - prev.y1
    if gap > 3/2 * (prev.y1 - prev.y0) ∨ gap > 50 then
      clusterWalk r [r] (acc ++ [cur]) rs
    else
      clusterWalk r (cur ++ [r]) acc rs

/-- Clusters of the sorted row list (`clusters` in the code). -/
def clusterRows : List Box → List (List Box)
  | [] => []
  | r0 :: rest => clusterWalk r0 [r0] [] rest

/-- `min(r[1] for r in cluster)` (clusters are nonempty by construction). -/
def clusterMinY : List Box → ℚ
  | [] => 0
  | r :: rs => rs.foldl (fun m b => min m b.y0) r.y0

/-- `max(r[3] for r in cluster)`. -/
def clusterMaxY : List Box → ℚ
  | [] => 0
  | r :: rs => rs.foldl (fun m b => max m b.y1) r.y1

/-- Fallback table regions synthesized from row clusters: full image width,
cluster's vertical extent padded by 10px and clamped to the image. -/
def fallbackRegions (w h : ℚ) (rows : List Box) : List Box :=
  (clusterRows rows).map
    (fun cl => ⟨0, max 0 (clusterMinY cl - 10), w, min h (clusterMaxY cl + 10)⟩)

/-- Base grid of row×column intersections (`grid_map`), keyed by index pair;
present only when the intersection has positive area. -/
def gridMapAt (trows tcols : List Box) (r c : Nat) : Option Box :=
  match trows.get? r, tcols.get? c with
  | some rb, some cb =>
    let x0 := max cb.x0 rb.x0
    let y0 := max cb.y0 rb.y0
    let x1 := min cb.x1 rb.x1
    let y1 := min cb.y1 rb.y1
    if x0 < x1 ∧ y0 < y1 then some ⟨x0, y0, x1, y1⟩ else none
  | _, _ => none

/-- Row indices with more than 50% vertical overlap against a spanning box. -/
def coveredRows (trows : List Box) (s : Box) : List Nat :=
  (List.range trows.length).filter
    (fun r =>
      match trows.get? r with
      | some rb => decide (overlapY s rb > 1/2)
      | none => false)

/-- Column indices with more than 50% horizontal overlap against a spanning box. -/
def coveredCols (tcols : List Box) (s : Box) : List Nat :=
  (List.range tcols.length).filter
    (fun c =>
      match tcols.get? c with
      | some cb => decide (overlapX s cb > 1/2)
      | none => false)

/-- Index rectangle `[r0..r1] × [c0..c1]` in row-major order (the pairs the
span loop adds to `consumed_grid_cells`). -/
def rectIdx (r0 r1 c0 c1 : Nat) : List (Nat × Nat) :=
  (List.range' r0 (r1 + 1 - r0)).flatMap
    (fun r => (List.range' c0 (c1 + 1 - c0)).map (fun c => (r, c)))

/-- The `valid_grid` flag and running bbox union `(gx0, gy0, gx1, gy1)` of the
span loop, computed over the same index rectangle (sentinel start
`(10000, 10000, 0, 0)` as in the code). -/
def gridUnionFold (trows tcols : List Box) (r0 r1 c0 c1 : Nat) :
    Bool × ℚ × ℚ × ℚ × ℚ :=
  (rectIdx r0 r1 c0 c1).foldl
    (fun st p =>
      match gridMapAt trows tcols p.1 p.2 with
      | some gb =>
          (true, min st.2.1 gb.x0, min st.2.2.1 gb.y0,
           max st.2.2.2.1 gb.x1, max st.2.2.2.2 gb.y1)
      | none => st)
    (false, 10000, 10000, 0, 0)

/-- Header row indices: rows coinciding (within 2px per edge) with a box the
detector labelled "table row header". -/
def headerIdxList (trows headerBoxes : List Box) : List Nat :=
  (List.range trows.length).filter
    (fun r =>
      match trows.get? r with
      | some rb => headerBoxes.any (fun hb => isSameBox rb hb)
      | none => false)

/-- State threaded through the spanning-cell loop: emitted merged cells and
the consumed `(row, col)` index set. -/
structure SpanState where
  cells : List TableCell
  consumed : List (Nat × Nat)
  deriving DecidableEq, Repr

/-- Processing of one spanning-cell box: find covered rows/columns by >50%
overlap, skip if either is empty, emit one merged `TableCell` over the full
covered index rectangle (grid-snapped bbox when any base-grid cell exists
there, the raw span box otherwise), and consume the rectangle. -/
def spanStep (trows tcols : List Box) (headerIdx : List Nat)
    (st : SpanState) (sbox : Box) : SpanState :=
  let cr := coveredRows trows sbox
  let cc := coveredCols tcols sbox
  if cr = [] ∨ cc = [] then st
  else
    let r0 := listMin cr
    let r1 := listMax cr
    let c0 := listMin cc
    let c1 := listMax cc
    let u := gridUnionFold trows tcols r0 r1 c0 c1
    let fb : Box := if u.1 then ⟨u.2.1, u.2.2.1, u.2.2.2.1, u.2.2.2.2⟩ else sbox
    { cells := st.cells ++
        [⟨fb, r0, c0, r1 + 1 - r0, c1 + 1 - c0, "", decide (r0 ∈ headerIdx)⟩],
      consumed := st.consumed ++ rectIdx r0 r1 c0 c1 }

/-- Gap-filling pass: a 1×1 cell for every base-grid index not consumed by a
spanning cell. -/
def gapCellsList (trows tcols : List Box) (headerIdx : List Nat)
    (consumed : List (Nat × Nat)) : List TableCell :=
  (List.range trows.length).flatMap
    (fun r =>
      (List.range tcols.length).filterMap
        (fun c =>
          if (r, c) ∈ consumed then none
          else
            match gridMapAt trows tcols r c with
            | some bb => some ⟨bb, r, c, 1, 1, "", decide (r ∈ headerIdx)⟩
            | none => none))

/-- Reading order: `(row_idx, col_idx)` lexicographic. -/
def cellLe (a b : TableCell) : Bool :=
  decide (a.row_idx < b.row_idx ∨ (a.row_idx = b.row_idx ∧ a.col_idx ≤ b.col_idx))

/-- Structure reconstruction for one table region (the body of the
`for t_idx, t_box ...` loop after the containment filters): spanning cells
first, then gap filling, then the reading-order sort. -/
def reconstructCells (trows tcols tspans headerBoxes : List Box) : List TableCell :=
  let headerIdx := headerIdxList trows headerBoxes
  let st := tspans.foldl (spanStep trows tcols headerIdx) ⟨[], []⟩
  pySortBy cellLe (st.cells ++ gapCellsList trows tcols headerIdx st.consumed)

/-- `_detect_tables` after object collection: sorting, table-region synthesis,
per-region filtering and reconstruction.  `w`/`h` are the image dimensions. -/
def detectFromCollected (w h : ℚ) (c : Collected) : List (List TableCell) :=
  let rows := pySortBy rowLeKey c.rows
  let cols := pySortBy colLeKey c.cols
  let tboxes0 := pySortBy topLeKey c.tables
  let tboxes1 :=
    if tboxes0 = [] ∧ rows ≠ [] then fallbackRegions w h (pySortBy rowLeKey rows)
    else tboxes0
  let tboxes2 :=
    if tboxes1 = [] then (if rows ≠ [] ∧ cols ≠ [] then [⟨0, 0, w, h⟩] else [])
    else tboxes1
  tboxes2.foldl
    (fun acc tb =>
      let tbox : Box := ⟨max 0 tb.x0, max 0 tb.y0, min w tb.x1, min h tb.y1⟩
      let trows := rows.filter (fun r => isContained r tbox)
      let tcols := cols.filter (fun cc => isContained cc tbox)
      let tspans := c.spans.filter (fun s => isContained s tbox)
      if trows = [] ∨ tcols = [] then acc
      else
        let cells := reconstructCells (pySortBy rowLeKey trows) (pySortBy colLeKey tcols)
          tspans c.headerRows
        if cells ≠ [] then acc ++ [cells] else acc)
    []

/-- `_detect_tables` entry point. -/
def detectTables (w h : ℚ) (dets : List Det) : List (List TableCell) :=
  detectFromCollected w h (collectDets dets)

/-- The `(row, col)` grid indices a cell claims. -/
def cellClaims (cell : TableCell) (r c : Nat) : Bool :=
  decide (cell.row_idx ≤ r ∧ r < cell.row_idx + cell.row_span ∧
          cell.col_idx ≤ c ∧ c < cell.col_idx + cell.col_span)

/-- Number of cells of a table claiming grid index `(r, c)`. -/
def claimCount (cells : List TableCell) (r c : Nat) : Nat :=
  cells.countP (fun cell => cellClaims cell r c)

/-- Covered index rectangle `(r0, r1, c0, c1)` of a spanning box, computed
with the source's own overlap filters (`none` when the span loop skips the
box).  Used to phrase the amended disjointness precondition of claim C2. -/
def spanRect (trows tcols : List Box) (sbox : Box) : Option (Nat × Nat × Nat × Nat) :=
  let cr := coveredRows trows sbox
  let cc := coveredCols tcols sbox
  if cr = [] ∨ cc = [] then none
  else some (listMin cr, listMax cr, listMin cc, listMax cc)

/-- Two covered rectangles share no `(row, col)` index. -/
def rectsDisjointB (a b : Nat × Nat × Nat × Nat) : Bool :=
  decide (a.2.1 < b.1 ∨ b.2.1 < a.1 ∨ a.2.2.2 < b.2.2.1 ∨ b.2.2.2 < a.2.2.1)

/-- Amended precondition of claim C2: the covered rectangles of the spanning
boxes are pairwise disjoint (the code never checks this). -/
def spansDisjointB (trows tcols : List Box) : List Box → Bool
  | [] => true
  | s :: rest =>
    (match spanRect trows tcols s with
     | none => true
     | some ra =>
       rest.all (fun t =>
         match spanRect trows tcols t with
         | none => true
         | some rb => rectsDisjointB ra rb)) &&
    spansDisjointB trows tcols rest

/-- Amended precondition of claim C2: every row×column intersection of the
base grid has positive area (no index of the grid is missing). -/
def gridTotalB (trows tcols : List Box) : Bool :=
  (List.range trows.length).all
    (fun r =>
      (List.range tcols.length).all
        (fun c => (gridMapAt trows tcols r c).isSome))

/-! ## Table validation (`_is_false_positive_table`) -/

/-- The math/markup-control characters of heuristic 1. -/
def mathSyms : List Char := ['\\', '$', '=', '^', '_', '\x7b', '\x7d']

/-- One iteration of the lowercase-start counting loop; the state is
`(lowercase_starts, valid_cells_count)`.  Cells containing a math/markup
character are counted as valid but never as lowercase; cells with no
alphabetic character are not counted at all. -/
def fpCountStep (st : Nat × Nat) (cell : TableCell) : Nat × Nat :=
  let text := pyStrip cell.content.data
  if mathSyms.any (fun c => text.contains c) then (st.1, st.2 + 1)
  else
    match text.filter Char.isAlpha with
    | [] => st
    | c0 :: _ => (st.1 + (if c0.isLower then 1 else 0), st.2 + 1)

/-- `_is_false_positive_table`. -/
def isFalsePositiveTable (cells : List TableCell) : Bool :=
  if cells = [] then true
  else
    let filled := cells.filter (fun c => !(c.content.isEmpty))
    if filled = [] then true
    else
      let st := filled.foldl fpCountStep (0, 0)
      if st.2 = 0 then false
      else if (st.1 : ℚ) / (st.2 : ℚ) > 4/5 then true
      else
        let colsIdx := (cells.map (fun c => c.col_idx)).dedup
        let rowsIdx := (cells.map (fun c => c.row_idx)).dedup
        decide (colsIdx.length ≤ 1 ∧ rowsIdx.length > 2)

/-! ## Cell-content cleaning and markup rendering (`_clean_content`,
`_build_latex`) -/

/-- Python `str.split()` (split on whitespace runs, no empty words). -/
def pyWords : List Char → List (List Char)
  | [] => []
  | c :: rest =>
    if isSpaceChar c then pyWords rest
    else
      match pyWords rest with
      | [] => [[c]]
      | w :: ws =>
        if rest ≠ [] ∧ isSpaceChar (rest.headD ' ') then [c] :: w :: ws
        else (c :: w) :: ws

/-- `" ".join(text.split())`. -/
def normSpace (s : List Char) : List Char :=
  List.intercalate [' '] (pyWords s)

/-- `_clean_content`: strip HTML emphasis tags, break tags and newlines, and
normalize whitespace. -/
def cleanContent (text : List Char) : List Char :=
  if text = [] then []
  else
    let t := replaceSubstr "<b>".data [] text
    let t := replaceSubstr "</b>".data [] t
    let t := replaceSubstr "<i>".data [] t
    let t := replaceSubstr "</i>".data [] t
    let t := replaceSubstr "<u>".data [] t
    let t := replaceSubstr "</u>".data [] t
    let t := replaceSubstr "<br>".data [' '] t
    let t := replaceChar '\n' [' '] t
    normSpace t

/-- A slot of the renderer's occupancy grid (`grid_state` entries). -/
inductive GridEntry
  | origin (text : List Char) (rs cs : Nat)
  | occupied
  deriving DecidableEq, Repr

/-- Bounds-checked assignment `grid[r][c] = e`; `none` models Python's
`IndexError`. -/
def setGrid (g : List (List (Option GridEntry))) (r c : Nat) (e : GridEntry) :
    Option (List (List (Option GridEntry))) :=
  match g.get? r with
  | none => none
  | some row =>
    match row.get? c with
    | none => none
    | some _ => some (g.set r (row.set c (some e)))

/-- The text placed at a cell's origin slot: cleaned content, bold-wrapped for
header cells not already bold/math. -/
def buildCellText (cell : TableCell) : List Char :=
  let t := cleanContent cell.content.data
  if cell.is_header ∧ t ≠ [] then
    if ¬("\\textbf".data.isPrefixOf t) ∧ ¬(t.contains '$') then
      "\\textbf\x7b".data ++ t ++ "\x7d".data
    else t
  else t

/-- All `(r, c)` slots a cell spans (`range(row_idx, row_idx+row_span) ×
range(col_idx, col_idx+col_span)`). -/
def spanIdxPairs (cell : TableCell) : List (Nat × Nat) :=
  (List.range' cell.row_idx cell.row_span).flatMap
    (fun r => (List.range' cell.col_idx cell.col_span).map (fun c => (r, c)))

/-- Write one cell into the grid: origin slot, then `occupied` markers on
every other spanned slot (this loop is where a row overflow raises). -/
def writeCell (g : List (List (Option GridEntry))) (cell : TableCell) :
    Option (List (List (Option GridEntry))) :=
  match setGrid g cell.row_idx cell.col_idx
      (.origin (buildCellText cell) cell.row_span cell.col_span) with
  | none => none
  | some g1 =>
    (spanIdxPairs cell).foldl
      (fun og p =>
        match og with
        | none => none
        | some g2 =>
          if p.1 = cell.row_idx ∧ p.2 = cell.col_idx then some g2
          else setGrid g2 p.1 p.2 .occupied)
      (some g1)

/-- Emission of one body row (the `while c < num_cols` loop), from column `c`
on, with fuel `numCols` (the column index strictly increases each step).  A
zero column span would make the Python loop diverge; that is modelled as
`none` (unreachable from the reconstructor, whose spans are ≥ 1). -/
def emitRowAux (row : List (Option GridEntry)) (numCols : Nat) :
    Nat → Nat → Option (List (List Char))
  | 0, c => if c < numCols then none else some []
  | fuel + 1, c =>
    if c < numCols then
      match row.get? c with
      | none => none
      | some slot =>
        match slot with
        | none => (emitRowAux row numCols fuel (c + 1)).map (fun items => " ".data :: items)
        | some .occupied =>
          (emitRowAux row numCols fuel (c + 1)).map (fun items => " ".data :: items)
        | some (.origin text rs cs) =>
          let t1 := if rs > 1 then
              "\\multirow\x7b".data ++ (toString rs).data ++ "\x7d\x7b*\x7d\x7b".data ++
                text ++ "\x7d".data
            else text
          let t2 := if cs > 1 then
              "\\multicolumn\x7b".data ++ (toString cs).data ++ "\x7d\x7bc|\x7d\x7b".data ++
                t1 ++ "\x7d".data
            else t1
          if cs = 0 then none
          else (emitRowAux row numCols fuel (c + cs)).map (fun items => t2 :: items)
    else some []

/-- One body row of the renderer. -/
def emitRow (row : List (Option GridEntry)) (numCols : Nat) (c : Nat) :
    Option (List (List Char)) :=
  emitRowAux row numCols numCols c

/-- `"|" + "c|" * num_cols`. -/
def colDefStr (n : Nat) : List Char :=
  "|".data ++ (List.range n).flatMap (fun _ => "c|".data)

/-- `_build_latex`: occupancy grid construction plus row-major emission of
the bordered tabular markup.  `none` models an uncaught `IndexError`. -/
def buildLatex (cells : List TableCell) : Option String :=
  if cells = [] then some ""
  else
    let maxRow := listMax (cells.map (fun c => c.row_idx))
    let maxCol := listMax (cells.map (fun c => c.col_idx + c.col_span - 1))
    let numCols := maxCol + 1
    let g0 : List (List (Option GridEntry)) :=
      List.replicate (maxRow + 1) (List.replicate numCols none)
    match cells.foldl (fun og cell => og.bind (fun g => writeCell g cell)) (some g0) with
    | none => none
    | some g =>
      let body := (List.range (maxRow + 1)).foldl
        (fun acc r =>
          acc.bind (fun lines =>
            match g.get? r with
            | none => none
            | some row =>
              (emitRow row numCols 0).map
                (fun items =>
                  lines ++ [List.intercalate " & ".data items ++ " \\\\".data,
                            "\\hline".data])))
        (some [])
      match body with
      | none => none
      | some bodyLines =>
        let allLines :=
          ["\\begin\x7bcenter\x7d".data,
           "\\begin\x7btabular\x7d\x7b".data ++ colDefStr numCols ++ "\x7d".data,
           "\\hline".data] ++ bodyLines ++
          ["\\end\x7btabular\x7d".data, "\\end\x7bcenter\x7d".data]
        some ⟨List.intercalate "\n".data allLines⟩

/-! ## End-to-end table processing (`process_table`)

The OCR callback is the external collaborator `(image crop) → text`; it is
modelled as a function from the padded integer crop box to `Except ε String`
(`Except.error` models a raised exception).  Python-level failures of
`process_table` itself are the render `IndexError` of `_build_latex`. -/

/-- Failures observable from `process_table`. -/
inductive ProcErr (ε : Type)
  | ocr (e : ε)
  | render
  deriving DecidableEq, Repr

instance {ε α : Type} [DecidableEq ε] [DecidableEq α] : DecidableEq (Except ε α) :=
  fun a b =>
    match a, b with
    | .error e1, .error e2 =>
      if h : e1 = e2 then isTrue (by rw [h]) else isFalse (by intro hc; cases hc; exact h rfl)
    | .ok v1, .ok v2 =>
      if h : v1 = v2 then isTrue (by rw [h]) else isFalse (by intro hc; cases hc; exact h rfl)
    | .error _, .ok _ => isFalse (by intro hc; cases hc)
    | .ok _, .error _ => isFalse (by intro hc; cases hc)

/-- Python `int()` truncation toward zero. -/
def pyInt (q : ℚ) : ℤ := if q ≥ 0 then ⌊q⌋ else ⌈q⌉

/-- Integer crop rectangle. -/
structure IntBox where
  x0 : ℤ
  y0 : ℤ
  x1 : ℤ
  y1 : ℤ
  deriving DecidableEq, Repr

/-- The clamped integer crop box of a cell. -/
def cropBoxOf (w h : ℤ) (b : Box) : IntBox :=
  ⟨max 0 (pyInt b.x0), max 0 (pyInt b.y0), min w (pyInt b.x1), min h (pyInt b.y1)⟩

/-- 12px padding of a crop box, clamped to the image. -/
def padBox (w h : ℤ) (cb : IntBox) : IntBox :=
  ⟨max 0 (cb.x0 - 12), max 0 (cb.y0 - 12), min w (cb.x1 + 12), min h (cb.y1 + 12)⟩

/-- The OCR loop over one table's cells: invalid (empty) crops are skipped,
every other cell's padded crop goes to the callback and the stripped result
becomes the cell content; a callback exception aborts the loop. -/
def ocrCells (w h : ℤ) (ocr : IntBox → Except ε String) :
    List TableCell → Except ε (List TableCell)
  | [] => .ok []
  | cell :: rest =>
    let cb := cropBoxOf w h cell.bbox
    if cb.x1 ≤ cb.x0 ∨ cb.y1 ≤ cb.y0 then ocrCells w h ocr rest
    else
      match ocr (padBox w h cb) with
      | .error e => .error e
      | .ok txt =>
        (ocrCells w h ocr rest).map
          (fun cs => { cell with content := ⟨pyStrip txt.data⟩ } :: cs)

/-- `process_table` (with the model available): detect, OCR, validate,
render, join. -/
def processTable (w h : ℤ) (dets : List Det) (ocr : IntBox → Except ε String) :
    Except (ProcErr ε) String :=
  let tables := detectTables (w : ℚ) (h : ℚ) dets
  if tables = [] then .ok ""
  else
    match tables.foldl
        (fun (acc : Except (ProcErr ε) (List String)) cells =>
          match acc with
          | .error e => .error e
          | .ok outs =>
            match ocrCells w h ocr cells with
            | .error e => .error (.ocr e)
            | .ok cellsC =>
              if isFalsePositiveTable cellsC then .ok outs
              else
                match buildLatex cellsC with
                | none => .error .render
                | some tex => .ok (outs ++ [tex]))
        (Except.ok []) with
    | .error e => .error e
    | .ok outs => .ok (String.intercalate "\n\n" outs)

/-- The OCR loop specialized to a callback that never raises. -/
def ocrCellsPure (w h : ℤ) (g : IntBox → String) : List TableCell → List TableCell
  | [] => []
  | cell :: rest =>
    let cb := cropBoxOf w h cell.bbox
    if cb.x1 ≤ cb.x0 ∨ cb.y1 ≤ cb.y0 then ocrCellsPure w h g rest
    else { cell with content := ⟨pyStrip (g (padBox w h cb)).data⟩ } :: ocrCellsPure w h g rest

/-- `process_table` specialized to a callback that never raises: the only
remaining failure is the renderer's `IndexError` (`none`). -/
def processTablePure (w h : ℤ) (dets : List Det) (g : IntBox → String) : Option String :=
  let tables := detectTables (w : ℚ) (h : ℚ) dets
  if tables = [] then some ""
  else
    match tables.foldl
        (fun (acc : Option (List String)) cells =>
          match acc with
          | none => none
          | some outs =>
            let cellsC := ocrCellsPure w h g cells
            if isFalsePositiveTable cellsC then some outs
            else
              match buildLatex cellsC with
              | none => none
              | some tex => some (outs ++ [tex]))
        (some []) with
    | none => none
    | some outs => some (String.intercalate "\n\n" outs)

/-! ## Block classification (`tex_builder.py`: `_classify_text_block`)

Regexes are implemented directly over `List Char`; greedy/lazy matching
behaviour is reproduced where it is observable (notes at each matcher). -/

/-- A page layout block as consumed by the TeX builder (normalized bbox). -/
structure LayoutBlock where
  bbox : Box
  page_num : Nat
  raw_label : Option String
  font_size : Option ℚ
  is_bold : Bool
  block_type : String
  deriving DecidableEq, Repr

/-- Extracted content for one block: exactly one field is populated. -/
structure ExtractedContent where
  text : Option String
  latex : Option String
  image_path : Option String
  deriving DecidableEq, Repr

/-- `(\.\d+)*` consumed greedily after an initial digit run.  Backtracking
into this group can never rescue a following `\s+`, so greedy consumption is
faithful. -/
def dotDigitsTailAux : Nat → List Char → List Char
  | 0, s => s
  | _ + 1, [] => []
  | _ + 1, [c] => [c]
  | fuel + 1, c :: d :: rest =>
    if c = '.' ∧ d.isDigit then dotDigitsTailAux fuel ((d :: rest).dropWhile Char.isDigit)
    else c :: d :: rest

/-- `(\.\d+)*` with fuel `s.length` (each step consumes at least two
characters). -/
def dotDigitsTail (s : List Char) : List Char := dotDigitsTailAux s.length s

/-- The char class `[A-ZÀ-Ỹ]` (literal codepoint range `U+00C0`–`U+1EF8`). -/
def isUpperSectionChar (c : Char) : Bool :=
  ('A' ≤ c ∧ c ≤ 'Z') ∨ ('À' ≤ c ∧ c ≤ 'Ỹ')

/-- `re.match(r'^(\d+(\.\d+)*|[IVX]+\.|[A-Z]\.)\s+[A-ZÀ-Ỹ]', s)`. -/
def sectionRegexMatch (s : List Char) : Bool :=
  let tryTail : List Char → Bool := fun r =>
    let ws := r.takeWhile isSpaceChar
    let r2 := r.dropWhile isSpaceChar
    (!ws.isEmpty) &&
      (match r2 with
       | c :: _ => isUpperSectionChar c
       | [] => false)
  (let ds := s.takeWhile Char.isDigit
   (!ds.isEmpty) && tryTail (dotDigitsTail (s.dropWhile Char.isDigit))) ||
  (let run := s.takeWhile (fun c => c = 'I' ∨ c = 'V' ∨ c = 'X')
   (!run.isEmpty) &&
     (match s.dropWhile (fun c => c = 'I' ∨ c = 'V' ∨ c = 'X') with
      | '.' :: r => tryTail r
      | _ => false)) ||
  (match s with
   | c :: '.' :: r => (decide ('A' ≤ c ∧ c ≤ 'Z')) && tryTail r
   | _ => false)

/-- `re.match(r'^(19|20)\d{2}', s)`. -/
def yearMatch : List Char → Bool
  | c1 :: c2 :: c3 :: c4 :: _ =>
    ((c1 = '1' ∧ c2 = '9') ∨ (c1 = '2' ∧ c2 = '0')) ∧ c3.isDigit ∧ c4.isDigit
  | _ => false

/-- `text_start.split(' ')[0]` (first token by single-space split on the
already stripped text). -/
def firstSpaceTok (s : List Char) : List Char :=
  s.takeWhile (fun c => ¬(c = ' '))

/-- `startswith` against a tuple of alternatives. -/
def startsWithAny (s : List Char) (pats : List String) : Bool :=
  pats.any (fun p => p.data.isPrefixOf s)

/-- `endswith` against a tuple of alternatives. -/
def endsWithAny (s : List Char) (pats : List String) : Bool :=
  pats.any (fun p => p.data.isSuffixOf s)

/-- `_classify_text_block`. -/
def classifyTextBlock (block : LayoutBlock) (text : String) : String :=
  let textStart := pyStrip text.data
  let isLowerStart :=
    match textStart with
    | c :: _ => c.isLower
    | [] => false
  let lbl := block.raw_label.getD ""
  if strTruthy block.raw_label ∧ lbl = "Title" then "title"
  else if strTruthy block.raw_label ∧ lbl = "Section-header" then
    (if isLowerStart then "text" else "section")
  else if strTruthy block.raw_label ∧ lbl = "List-item" then "list-item"
  else if text.data.contains '$' ∨ containsSub "\\[".data text.data ∨
      containsSub "\\(".data text.data then "text"
  else if isLowerStart then "text"
  else if sectionRegexMatch textStart ∧ textStart.length < 80 then
    (if yearMatch textStart then "text"
     else
       let startsDigit : Bool :=
         match textStart with
         | c :: _ => c.isDigit
         | [] => false
       if startsDigit ∧ (firstSpaceTok textStart).count '.' > 1 then "subsection"
       else "section")
  else
    let textLen := textStart.length
    let fontRes : Option String :=
      if textLen < 80 ∧ block.bbox.y0 < 3/10 then
        if numTruthy block.font_size then
          let fs := block.font_size.getD 0
          if block.is_bold ∧ fs > 16 then some "title"
          else if block.is_bold ∧ fs > 13 then some "section"
          else if fs > 20 then some "title"
          else if fs > 17 then some "section"
          else none
        else
          if block.bbox.y0 < 1/20 ∧ textLen < 40 then some "title"
          else if textLen < 30 ∧ block.bbox.y0 < 1/10 then some "section"
          else none
      else none
    match fontRes with
    | some r => r
    | none =>
      let titleRes : Option String :=
        if block.page_num = 0 ∧ block.bbox.y0 < 3/20 ∧ textLen > 20 ∧ textLen < 200 ∧
            ¬(block.raw_label = some "Figure" ∨ block.raw_label = some "Table" ∨
              block.raw_label = some "Page-header") then
          if block.is_bold then some "title"
          else if block.bbox.y0 < 1/10 then some "title"
          else none
        else none
      match titleRes with
      | some r => r
      | none =>
        if startsWithAny (textStart.take 3) ["• ", "- ", "* ", "1.", "a.", "i."] then
          "list-item"
        else "text"

/-! ## Paragraph assembly (`_merge_text_blocks`) -/

/-- An element of the assembled stream (the Python dicts; absent keys are
`none`).  `meta` carries `(raw_label, font_size, is_bold)`. -/
structure MItem where
  type : String
  text : Option String
  latex : Option String
  image_path : Option String
  meta : Option (Option String × Option ℚ × Bool)
  deriving DecidableEq, Repr

/-- A `paragraph` item. -/
def mkPara (t : String) : MItem := ⟨"paragraph", some t, none, none, none⟩

/-- `re.match(r'^\s*\d+\s*$', s)` (standalone page number). -/
def noiseMatch (s : List Char) : Bool :=
  let r := s.dropWhile isSpaceChar
  let ds := r.takeWhile Char.isDigit
  ds ≠ [] ∧ ((r.dropWhile Char.isDigit).dropWhile isSpaceChar) = []

/-- `(?:[\.\s]\d+)*` consumed greedily; returns `(consumed, rest)`.  Each unit
is one separator char followed by a digit run; the continuation `\s*[\)\]]`
cannot be rescued by dropping units, so greedy consumption is faithful. -/
def sepDigitsRunsAux : Nat → List Char → List Char × List Char
  | 0, s => ([], s)
  | _ + 1, [] => ([], [])
  | _ + 1, [c] => ([], [c])
  | fuel + 1, c :: d :: rest =>
    if (c = '.' ∨ isSpaceChar c) ∧ d.isDigit then
      let ds := (d :: rest).takeWhile Char.isDigit
      let pr := sepDigitsRunsAux fuel ((d :: rest).dropWhile Char.isDigit)
      (c :: (ds ++ pr.1), pr.2)
    else ([], c :: d :: rest)

/-- `(?:[\.\s]\d+)*` with fuel (each step consumes at least two characters). -/
def sepDigitsRuns (s : List Char) : List Char × List Char := sepDigitsRunsAux s.length s

/-- `re.match(r'^\s*[\(\[]\s*(\d+(?:[\.\s]\d+)*)\s*[\)\]][\.\,\;]?\s*$', s)`,
returning capture group 1 (the equation-tag numeral). -/
def eqNumMatch (s : List Char) : Option (List Char) :=
  let s1 := s.dropWhile isSpaceChar
  match s1 with
  | c :: r1 =>
    if c = '(' ∨ c = '[' then
      let r2 := r1.dropWhile isSpaceChar
      let ds := r2.takeWhile Char.isDigit
      if ds = [] then none
      else
        let pr := sepDigitsRuns (r2.dropWhile Char.isDigit)
        let r4 := pr.2.dropWhile isSpaceChar
        match r4 with
        | b :: r5 =>
          if b = ')' ∨ b = ']' then
            let r6 :=
              match r5 with
              | p :: r7 => if p = '.' ∨ p = ',' ∨ p = ';' then r7 else r5
              | [] => ([] : List Char)
            if r6.dropWhile isSpaceChar = [] then some (ds ++ pr.1) else none
          else none
        | [] => none
    else none
  | [] => none

/-- `\d+(\.\d+)*$` matched against the whole string. -/
def numFullMatch (s : List Char) : Bool :=
  let ds := s.takeWhile Char.isDigit
  ds ≠ [] ∧ dotDigitsTail (s.dropWhile Char.isDigit) = []

/-- `re.match(r'^([^\.]+?)\s+(\d+(\.\d+)*)$', s)`: lazy group 1, so the
earliest split whose remainder is whitespace followed by a full numeral wins;
a `'.'` ends the search (group 1 cannot contain one).  Returns
`(group1, group2)`. -/
def trailingNumGo (acc : List Char) : List Char → Option (List Char × List Char)
  | [] => none
  | c :: rest =>
    if c = '.' then none
    else
      let acc' := acc ++ [c]
      let ws := rest.takeWhile isSpaceChar
      let r2 := rest.dropWhile isSpaceChar
      if ws ≠ [] ∧ numFullMatch r2 then some (acc', r2)
      else trailingNumGo acc' rest

/-- `is_uppercase_header`: more than 80% of alphabetic characters uppercase,
stripped length in 4..149. -/
def isUppercaseHeader (text : List Char) : Bool :=
  let ts := pyStrip text
  let upperChars := (ts.filter (fun c => c.isUpper)).length
  let totalAlpha := (ts.filter (fun c => c.isAlpha)).length
  decide (totalAlpha > 0 ∧ (upperChars : ℚ) / (totalAlpha : ℚ) > 4/5 ∧
    ts.length > 3 ∧ ts.length < 150)

/-- The paragraph-break decision of `_merge_text_blocks` (computed only when
a previous block exists and the paragraph buffer is nonempty). -/
def shouldBreakFlag (prevBlock block : LayoutBlock) (prevEntry : List Char)
    (currText : Option String) : Bool :=
  let vGap := block.bbox.y0 - prevBlock.bbox.y1
  let xDiff := |block.bbox.x0 - prevBlock.bbox.x0|
  let isLargeGap := decide (vGap > 4/100)
  let isHugeGap := decide (vGap > 10/100)
  let isColChange := decide (xDiff > 10/100)
  let pt := pyStrip prevEntry
  let endsSentence :=
    endsWithAny pt [".", "!", "?", ":"] || endsWithAny pt [".\"", "!\"", "?\""]
  let endsHyphen := endsWithAny pt ["-"]
  let isUpper :=
    match currText with
    | some t => if !t.isEmpty then isUppercaseHeader t.data else false
    | none => false
  if isColChange then true
  else if isHugeGap then true
  else if isUpper then true
  else if endsHyphen then false
  else if !endsSentence then (if isLargeGap then true else false)
  else if isLargeGap then true
  else if block.block_type ≠ prevBlock.block_type then true
  else false

/-- Assembler state: emitted items, open paragraph buffer, previous block. -/
def MergeState : Type := List MItem × List (List Char) × Option LayoutBlock

/-- The body of the per-block loop shared by all non-tag-consuming paths:
break decision, classification, and the text/latex/image branches. -/
def mergeMain (merged : List MItem) (curPar : List (List Char))
    (prevBlock : Option LayoutBlock) (contentText : Option String)
    (content : ExtractedContent) (block : LayoutBlock) : MergeState :=
  let sb :=
    match prevBlock with
    | some pb =>
      if curPar ≠ [] then shouldBreakFlag pb block ((curPar.getLast?).getD []) contentText
      else false
    | none => false
  if strTruthy contentText then
    let cls := classifyTextBlock block (contentText.getD "")
    if cls = "title" ∨ cls = "section" ∨ cls = "subsection" ∨ cls = "list-item" then
      let merged1 :=
        if curPar ≠ [] then merged ++ [mkPara ⟨List.intercalate [' '] curPar⟩] else merged
      (merged1 ++
        [⟨cls, some ⟨normSpace (contentText.getD "").data⟩, none, none,
          some (block.raw_label, block.font_size, block.is_bold)⟩], [], some block)
  else
      let stepA :=
        if sb = true ∧ curPar ≠ [] then
          (merged ++ [mkPara ⟨List.intercalate [' '] curPar⟩], ([] : List (List Char)))
        else (merged, curPar)
      (stepA.1, stepA.2 ++ [normSpace (contentText.getD "").data], some block)
  else if strTruthy content.latex then
    let tagFlush :=
      if curPar ≠ [] then
        match eqNumMatch (pyStrip (List.intercalate [' '] curPar)) with
        | some tg => (some (tg.filter (fun c => ¬(c = ' '))), merged)
        | none => (none, merged ++ [mkPara ⟨List.intercalate [' '] curPar⟩])
      else (none, merged)
    let btype := if block.block_type = "table" then "table" else "math"
    let finalLatex :=
      (content.latex.getD "").data ++
        (match tagFlush.1 with
         | some tg => if btype = "math" then " \\tag\x7b".data ++ tg ++ "\x7d".data else []
         | none => [])
    -- (the table-math vertical-proximity check computes a flag and does nothing)
    (tagFlush.2 ++ [⟨btype, none, some ⟨finalLatex⟩, none, none⟩], [], some block)
  else if strTruthy content.image_path then
    let merged1 :=
      if curPar ≠ [] then merged ++ [mkPara ⟨List.intercalate [' '] curPar⟩] else merged
    -- note: the image branch does not update `prev_block` (faithful to source)
    (merged1 ++ [⟨"image", none, none, content.image_path, none⟩], [], prevBlock)
  else (merged, curPar, prevBlock)

/-- One iteration of the `_merge_text_blocks` loop. -/
def mergeStep (st : MergeState) (p : ExtractedContent × LayoutBlock) : MergeState :=
  let merged := st.1
  let curPar := st.2.1
  let prevBlock := st.2.2
  let content := p.1
  let block := p.2
  if strTruthy content.text ∧ noiseMatch (content.text.getD "").data ∧
      (block.bbox.y0 < 1/10 ∨ block.bbox.y0 > 9/10) then st
  else
    let text1 : Option String :=
      if strTruthy content.text ∧ (content.text.getD "").length < 80 then
        match trailingNumGo [] (pyStrip (content.text.getD "").data) with
        | some pr =>
          let tp := pyStrip pr.1
          if tp ≠ [] ∧ ((tp.headD ' ').isUpper ∨ containsSub "Trang".data tp) then
            some ⟨pr.2 ++ (' ' :: tp)⟩
          else content.text
        | none => content.text
      else content.text
    let tagOpt := if strTruthy text1 then eqNumMatch (text1.getD "").data else none
    match tagOpt with
    | some tagVal =>
      if curPar = [] ∧ merged ≠ [] ∧
          ((merged.getLast?).map (fun it => it.type)).getD "" = "math" then
        match merged.getLast? with
        | some last =>
          let newLatex : String := ⟨(last.latex.getD "").data ++ " \\tag\x7b".data ++ tagVal ++ "\x7d".data⟩
          (merged.dropLast ++ [{ last with latex := some newLatex }], curPar, prevBlock)
        | none => st
      else mergeMain merged curPar prevBlock text1 content block
    | none => mergeMain merged curPar prevBlock text1 content block

/-- `_merge_text_blocks`. -/
def mergeTextBlocks (contents : List ExtractedContent) (blocks : List LayoutBlock) :
    List MItem :=
  let st := (contents.zip blocks).foldl mergeStep ([], [], none)
  if st.2.1 ≠ [] then st.1 ++ [mkPara ⟨List.intercalate [' '] st.2.1⟩] else st.1

/-! ## Text escaping (`_escape_latex`, `_fix_vietnamese_encoding`,
`_process_rich_text`, `_escape_simple`)

The regex substitutions of `_fix_vietnamese_encoding` use only literal
characters, `\s*` and `\b`; they are interpreted over a small token language.
Scanners that advance by a matched span use an explicit fuel argument equal
to the input length (every step consumes at least one character, so the fuel
never runs out on the recursions actually taken). -/

/-- Case-insensitive prefix test (ASCII case folding). -/
def icPrefix (pat s : List Char) : Bool :=
  (pat.map lowerChar).isPrefixOf (s.map lowerChar)

/-- First marker of an alternation that matches as a (case-insensitive)
prefix, with the remainder.  The marker alternations used in the source are
pairwise prefix-incompatible, so at most one can match. -/
def firstMarkerIC (markers : List String) (s : List Char) :
    Option (String × List Char) :=
  match markers with
  | [] => none
  | m :: ms =>
    if icPrefix m.data s then some (m, s.drop m.data.length)
    else firstMarkerIC ms s

/-- Tokens of the substitution-pattern language: a literal character, `\s*`,
or a word boundary `\b`. -/
inductive PatTok
  | lit (c : Char)
  | wsStar
  | bound
  deriving DecidableEq, Repr

/-- Literal tokens of a string. -/
def lits (s : String) : List PatTok := s.data.map PatTok.lit

/-- A word-bounded literal pattern (`\b...\b`). -/
def bword (s : String) : List PatTok := [PatTok.bound] ++ lits s ++ [PatTok.bound]

/-- Pattern match at the current position; `prev` is the character before the
position (for `\b`).  Returns the remainder after the match.  `\s*` is
consumed greedily: in every pattern of the table it is followed by a
non-whitespace literal, so backtracking cannot help. -/
def matchToks (ic : Bool) (prev : Option Char) :
    List PatTok → List Char → Option (List Char)
  | [], s => some s
  | .lit c :: ts, x :: r =>
    if (if ic then eqIC x c else x = c) then matchToks ic (some x) ts r else none
  | .lit _ :: _, [] => none
  | .wsStar :: ts, s =>
    let ws := s.takeWhile isSpaceChar
    let prev2 := if ws.isEmpty then prev else some ' '
    matchToks ic prev2 ts (s.dropWhile isSpaceChar)
  | .bound :: ts, s =>
    let prevIsWord := match prev with | some c => isWordChar c | none => false
    let nextIsWord := match s with | c :: _ => isWordChar c | [] => false
    if prevIsWord ≠ nextIsWord then matchToks ic prev ts s else none

/-- `re.sub` for a token pattern: left-to-right scan, non-overlapping
(zero-width matches never occur — every table pattern has a literal — and
are skipped defensively). -/
def reSubAux (ic : Bool) (toks : List PatTok) (rep : List Char) :
    Nat → Option Char → List Char → List Char
  | 0, _, s => s
  | _ + 1, _, [] => []
  | fuel + 1, prev, c :: rest =>
    match matchToks ic prev toks (c :: rest) with
    | some r =>
      if h : r.length < (c :: rest).length then
        let consumed := (c :: rest).take ((c :: rest).length - r.length)
        rep ++ reSubAux ic toks rep fuel consumed.getLast? r
      else c :: reSubAux ic toks rep fuel (some c) rest
    | none => c :: reSubAux ic toks rep fuel (some c) rest

/-- `re.sub(pattern, rep, s, flags)` over the token language. -/
def reSub (ic : Bool) (toks : List PatTok) (rep : List Char) (s : List Char) :
    List Char :=
  reSubAux ic toks rep s.length none s

/-- One substitution rule: pattern, replacement, ignore-case flag. -/
structure FixRule where
  pat : List PatTok
  rep : String
  ic : Bool

/-- The apostrophe character (U+0027). -/
def apos : Char := Char.ofNat 39

/-- The two case-sensitive `replacements` entries (`n\'eu` → `nếu`,
`\'` → `'`). -/
def vnReplacements : List FixRule :=
  [⟨lits "n\\" ++ [PatTok.lit apos] ++ lits "eu", "nếu", false⟩,
   ⟨[PatTok.lit '\\', PatTok.lit apos], String.singleton apos, false⟩]

/-- The `ocr_fixes` table, in insertion order, all applied with
`re.IGNORECASE`. -/
def vnOcrFixes : List FixRule :=
  [⟨bword "Nhửn diửn", "Nhận diện", true⟩,
   ⟨bword "kứ hứu", "ký hiệu", true⟩,
   ⟨bword "ký h iệu", "ký hiệu", true⟩,
   ⟨lits "toận", "toán", true⟩,
   ⟨lits "thuộng", "thường", true⟩,
   ⟨lits "Phân biửt", "Phân biệt", true⟩,
   ⟨lits "chử", "chữ", true⟩,
   ⟨lits "h.t.d", "h.t.đ", true⟩,
   ⟨lits "v" ++ [PatTok.lit apos] ++ lits "oi", "với", true⟩,
   ⟨lits "vòi", "với", true⟩,
   ⟨lits "khì", "khi", true⟩,
   ⟨lits "tại", "tại", true⟩,
   ⟨bword "va", "và", true⟩,
   ⟨lits "công thúc", "công thức", true⟩,
   ⟨lits "đinh lý", "định lý", true⟩,
   ⟨lits "già sử", "giả sử", true⟩,
   ⟨lits "mênh đề", "mệnh đề", true⟩,
   ⟨lits "hàm sô", "hàm số", true⟩,
   ⟨lits "Phuong trình", "Phương trình", true⟩,
   ⟨lits "nghiêm", "nghiệm", true⟩,
   ⟨lits "tôn tại", "tồn tại", true⟩,
   ⟨lits "khong gian", "không gian", true⟩,
   ⟨lits "vửét", "viết", true⟩,
   ⟨lits "đirợc", "được", true⟩,
   ⟨lits "dược", "được", true⟩,
   ⟨lits "cùa", "của", true⟩,
   ⟨lits "với", "với", true⟩,
   ⟨bword "ma trân", "ma trận", true⟩,
   ⟨bword "Đinh nghĩa", "Định nghĩa", true⟩,
   ⟨bword "Djnh nghia", "Định nghĩa", true⟩,
   ⟨bword "Dinh ly", "Định lý", true⟩,
   ⟨bword "Bô dề", "Bổ đề", true⟩,
   ⟨bword "Hê quả", "Hệ quả", true⟩,
   ⟨lits "q" ++ [PatTok.wsStar] ++ lits "\\in" ++ [PatTok.wsStar] ++ lits "G",
     "g \\in G", true⟩,
   ⟨lits "q" ++ [PatTok.wsStar] ++ lits "h" ++ [PatTok.wsStar] ++ lits "q^\x7b-1\x7d",
     "g h g^\x7b-1\x7d", true⟩,
   ⟨lits "qhq^\x7b-1\x7d", "ghg^\x7b-1\x7d", true⟩,
   ⟨lits "=_\x7b\\partial V\x7d", "= \\oiint_\x7b\\partial V\x7d", true⟩,
   ⟨lits "=_\x7b\\partial S\x7d", "= \\oint_\x7b\\partial S\x7d", true⟩,
   ⟨lits "•", "[[ITEM]]", true⟩]

/-- `_fix_vietnamese_encoding`. -/
def fixVietnamese (s : List Char) : List Char :=
  (vnReplacements ++ vnOcrFixes).foldl
    (fun t r => reSub r.ic r.pat r.rep.data t) s

/-- First occurrence of a literal pattern: `(before, after)`. -/
def findOcc (pat : List Char) : List Char → Option (List Char × List Char)
  | [] => if pat.isEmpty then some ([], []) else none
  | c :: rest =>
    if pat.isPrefixOf (c :: rest) then some ([], (c :: rest).drop pat.length)
    else
      match findOcc pat rest with
      | some pr => some (c :: pr.1, pr.2)
      | none => none

/-- First case-insensitive occurrence of a pattern **before any newline**
(for the lazy `(.*?)` without `re.DOTALL`): `(body, after)`. -/
def findCloseNoNl (pat : List Char) : List Char → Option (List Char × List Char)
  | [] => none
  | c :: rest =>
    if icPrefix pat (c :: rest) then some ([], (c :: rest).drop pat.length)
    else if c = '\n' then none
    else
      match findCloseNoNl pat rest with
      | some pr => some (c :: pr.1, pr.2)
      | none => none

/-- One `re.sub(r'<sup\b[^>]*>(.*?)</sup>', …)`-style substitution (fuel
scanner; `tagName` is `sup` or `sub`). -/
def subTagAux (openTag closeTag startMark endMark : List Char) :
    Nat → List Char → List Char
  | 0, s => s
  | _ + 1, [] => []
  | fuel + 1, c :: rest =>
    let noMatch := c :: subTagAux openTag closeTag startMark endMark fuel rest
    if c = '<' ∧ icPrefix openTag (c :: rest) then
      let afterOpen := (c :: rest).drop openTag.length
      if (match afterOpen with | d :: _ => !(isWordChar d) | [] => true) then
        match afterOpen.dropWhile (fun d => ¬(d = '>')) with
        | '>' :: body0 =>
          match findCloseNoNl closeTag body0 with
          | some pr =>
            startMark ++ pr.1 ++ endMark ++
              subTagAux openTag closeTag startMark endMark fuel pr.2
          | none => noMatch
        | _ => noMatch
      else noMatch
    else noMatch

/-- The `<sup>`/`<sub>` placeholder substitutions at the top of
`_escape_latex`. -/
def subSupPlaceholders (s : List Char) : List Char :=
  let t := subTagAux "<sup".data "</sup>".data "XYZSUPSTART".data "XYZSUPEND".data
    s.length s
  subTagAux "<sub".data "</sub>".data "XYZSUBSTART".data "XYZSUBEND".data
    t.length t

/-- Match of the `<math…>…</math>` alternative of `math_pattern` at the
current position (with `re.DOTALL`): `(matched span, rest)`. -/
def matchMathAt (s : List Char) : Option (List Char × List Char) :=
  if "<math".data.isPrefixOf s then
    let afterTag := s.drop 5
    let attr : List Char × List Char :=
      let ws := afterTag.takeWhile isSpaceChar
      let r2 := afterTag.dropWhile isSpaceChar
      if ¬ws.isEmpty ∧ "display=\"block\"".data.isPrefixOf r2 then
        (ws ++ "display=\"block\"".data, r2.drop 15)
      else if ¬ws.isEmpty ∧ "display=\"inline\"".data.isPrefixOf r2 then
        (ws ++ "display=\"inline\"".data, r2.drop 16)
      else ([], afterTag)
    match attr.2 with
    | '>' :: body0 =>
      match body0 with
      | b0 :: brest =>
        match findOcc "</math>".data brest with
        | some pr =>
          some ("<math".data ++ attr.1 ++ ('>' :: b0 :: pr.1) ++ "</math>".data, pr.2)
        | none => none
      | [] => none
    | _ => none
  else none

/-- Match of the `\$.+?\$` alternative: `(matched span, rest)`. -/
def matchDollarAt (s : List Char) : Option (List Char × List Char) :=
  match s with
  | '$' :: c0 :: rr =>
    match findOcc ['$'] rr with
    | some pr => some ('$' :: c0 :: (pr.1 ++ ['$']), pr.2)
    | none => none
  | _ => none

/-- Match of the `\\\(.+?\\\)` alternative: `(matched span, rest)`. -/
def matchParenAt (s : List Char) : Option (List Char × List Char) :=
  if "\\(".data.isPrefixOf s then
    match s.drop 2 with
    | c0 :: rr =>
      match findOcc "\\)".data rr with
      | some pr => some ("\\(".data ++ (c0 :: pr.1) ++ "\\)".data, pr.2)
      | none => none
    | [] => none
  else none

/-- `re.split(math_pattern, text, flags=re.DOTALL)` with its one capture
group: plain segments interleaved with matched spans (fuel scanner). -/
def mathSplitAux : Nat → List Char → List Char → List (List Char)
  | 0, acc, s => [acc.reverse ++ s]
  | _ + 1, acc, [] => [acc.reverse]
  | fuel + 1, acc, c :: rest =>
    let m :=
      if c = '<' then matchMathAt (c :: rest)
      else if c = '$' then matchDollarAt (c :: rest)
      else if c = '\\' then matchParenAt (c :: rest)
      else none
    match m with
    | some pr => acc.reverse :: pr.1 :: mathSplitAux fuel [] pr.2
    | none => mathSplitAux fuel (c :: acc) rest

/-- The parts of `re.split(math_pattern, text, flags=re.DOTALL)`. -/
def mathSplit (s : List Char) : List (List Char) := mathSplitAux s.length [] s

/-- `re.sub(r'</?math.*?>', '', text)` (no `DOTALL`: the lazy run must reach
`>` before any newline). -/
def strayMathSubAux : Nat → List Char → List Char
  | 0, s => s
  | _ + 1, [] => []
  | fuel + 1, c :: rest =>
    let tagLen : Option Nat :=
      if "<math".data.isPrefixOf (c :: rest) then some 5
      else if "</math".data.isPrefixOf (c :: rest) then some 6
      else none
    match tagLen with
    | some n =>
      let after := (c :: rest).drop n
      let run := after.takeWhile (fun d => ¬(d = '>') ∧ ¬(d = '\n'))
      match after.drop run.length with
      | '>' :: r2 => strayMathSubAux fuel r2
      | _ => c :: strayMathSubAux fuel rest
    | none => c :: strayMathSubAux fuel rest

/-- `re.split(r'(<b>.*?</b>|<i>.*?</i>)', text, flags=re.DOTALL)`. -/
def boldItalicSplitAux : Nat → List Char → List Char → List (List Char)
  | 0, acc, s => [acc.reverse ++ s]
  | _ + 1, acc, [] => [acc.reverse]
  | fuel + 1, acc, c :: rest =>
    let m : Option (List Char × List Char) :=
      if "<b>".data.isPrefixOf (c :: rest) then
        match findOcc "</b>".data ((c :: rest).drop 3) with
        | some pr => some ("<b>".data ++ pr.1 ++ "</b>".data, pr.2)
        | none => none
      else if "<i>".data.isPrefixOf (c :: rest) then
        match findOcc "</i>".data ((c :: rest).drop 3) with
        | some pr => some ("<i>".data ++ pr.1 ++ "</i>".data, pr.2)
        | none => none
      else none
    match m with
    | some pr => acc.reverse :: pr.1 :: boldItalicSplitAux fuel [] pr.2
    | none => boldItalicSplitAux fuel (c :: acc) rest

/-- `_escape_simple`: the twelve sequential single-character replacements, in
dict order. -/
def escapeSimple (text : List Char) : List Char :=
  let t := replaceChar '\\' "\\textbackslash\x7b\x7d".data text
  let t := replaceChar '&' "\\&".data t
  let t := replaceChar '%' "\\%".data t
  let t := replaceChar '$' "\\$".data t
  let t := replaceChar '#' "\\#".data t
  let t := replaceChar '_' "\\_".data t
  let t := replaceChar '\x7b' "\\\x7b".data t
  let t := replaceChar '\x7d' "\\\x7d".data t
  let t := replaceChar '~' "\\textasciitilde\x7b\x7d".data t
  let t := replaceChar '^' "\\textasciicircum\x7b\x7d".data t
  let t := replaceChar '<' "\\textless\x7b\x7d".data t
  replaceChar '>' "\\textgreater\x7b\x7d".data t

/-- `_process_rich_text`. -/
def processRichText (text : List Char) : List Char :=
  let t := strayMathSubAux text.length text
  let parts := boldItalicSplitAux t.length [] t
  parts.flatMap
    (fun part =>
      if "<b>".data.isPrefixOf part ∧ "</b>".data.isSuffixOf part then
        "\\textbf\x7b".data ++ escapeSimple ((part.drop 3).take (part.length - 7)) ++ "\x7d".data
      else if "<i>".data.isPrefixOf part ∧ "</i>".data.isSuffixOf part then
        "\\textit\x7b".data ++ escapeSimple ((part.drop 3).take (part.length - 7)) ++ "\x7d".data
      else escapeSimple part)

/-- `re.search(r'>((?:.|\n)+?)</math>', part)`: content of the earliest `>`
whose remainder contains `</math>` after at least one character. -/
def searchGtClose : Nat → List Char → Option (List Char)
  | 0, _ => none
  | _ + 1, [] => none
  | fuel + 1, c :: rest =>
    if c = '>' then
      match rest with
      | r0 :: rr =>
        match findOcc "</math>".data rr with
        | some pr => some (r0 :: pr.1)
        | none => searchGtClose fuel rest
      | [] => none
    else searchGtClose fuel rest

/-- Python `strip('$')`. -/
def stripDollars (s : List Char) : List Char :=
  ((s.dropWhile (fun c => c = '$')).reverse.dropWhile (fun c => c = '$')).reverse

/-- Processing of one part of the math split (the `for part in parts` loop
body of `_escape_latex`); empty parts contribute nothing. -/
def escapePart (part : List Char) : List Char :=
  if part = [] then []
  else if "<math".data.isPrefixOf part ∨ part.headD ' ' = '$' ∨
      "\\(".data.isPrefixOf part then
    if "<math".data.isPrefixOf part then
      match searchGtClose part.length part with
      | some content =>
        if containsSub "display=\"block\"".data part then
          "\n\\[ ".data ++ content ++ " \\]\n".data
        else "$".data ++ content ++ "$".data
      | none => "$".data ++ part ++ "$".data
    else if part.headD ' ' = '$' then
      "$".data ++ stripDollars part ++ "$".data
    else
      "$".data ++ ((part.drop 2).take (part.length - 4)) ++ "$".data
  else processRichText part

/-- `_escape_latex`. -/
def escapeLatex (text : List Char) : List Char :=
  let t := subSupPlaceholders text
  let t := replaceSubstr "&nbsp;".data " ".data t
  let t := fixVietnamese t
  let res := (mathSplit t).flatMap escapePart
  let res := replaceSubstr "[[ITEM]]".data "\n\\item ".data res
  let res := replaceSubstr "XYZSUPSTART".data "\\textsuperscript\x7b".data res
  let res := replaceSubstr "XYZSUPEND".data "\x7d".data res
  let res := replaceSubstr "XYZSUBSTART".data "\\textsubscript\x7b".data res
  replaceSubstr "XYZSUBEND".data "\x7d".data res

/-- `_escape_latex` on `String`. -/
def escapeLatexStr (s : String) : String := ⟨escapeLatex s.data⟩

/-! ## Semantic refinement (`_refine_semantics`) and the theorem/proof
rendering branches of `_generate_page` -/

/-- The theorem/lemma marker alternation
`(Định lý|Theorem|Lemma|Bổ đề|Tính chất|Hệ quả)`, in source order. -/
def theoremMarkers : List String :=
  ["Định lý", "Theorem", "Lemma", "Bổ đề", "Tính chất", "Hệ quả"]

/-- `theorem_pattern`: marker prefix (ignore-case) followed by `\b`. -/
def theoremPatternMatch (s : List Char) : Bool :=
  match firstMarkerIC theoremMarkers s with
  | some pr =>
    match pr.2 with
    | c :: _ => !(isWordChar c)
    | [] => true
  | none => false

/-- `abstract_pattern` (`^(Abstract|Tóm tắt)(\s*[:.])?`, ignore-case): the
optional suffix never affects whether a match exists. -/
def abstractMatch (s : List Char) : Bool :=
  (firstMarkerIC ["Abstract", "Tóm tắt"] s).isSome

/-- The leading-formatting loop `(\\textit\{|\\textbf\{|[\*\\\{])*` of the
proof patterns, consumed greedily (no marker starts with one of these
characters, so backtracking cannot help). -/
def proofPrefixLoopAux : Nat → List Char → List Char
  | 0, s => s
  | _ + 1, [] => []
  | fuel + 1, c :: rest =>
    if "\\textit\x7b".data.isPrefixOf (c :: rest) then
      proofPrefixLoopAux fuel ((c :: rest).drop 8)
    else if "\\textbf\x7b".data.isPrefixOf (c :: rest) then
      proofPrefixLoopAux fuel ((c :: rest).drop 8)
    else if c = '*' ∨ c = '\\' ∨ c = '\x7b' then proofPrefixLoopAux fuel rest
    else c :: rest

/-- The trailing class `[\*\}\.]` of the proof patterns. -/
def proofTailClass (c : Char) : Bool := c = '*' ∨ c = '\x7d' ∨ c = '.'

/-- `proof_start_pattern`: after the prefix loop and a proof marker, the
greedy `[\*\}\.]*` backtracks until `(\s*[:.])` fits; this succeeds exactly
when the trailing run contains a `.` or the remainder starts with optional
whitespace and a `:` or `.`. -/
def proofStartMatch (s : List Char) : Bool :=
  match firstMarkerIC ["Chứng minh", "Proof", "Lời giải"]
      (proofPrefixLoopAux s.length s) with
  | some pr =>
    let tRun := pr.2.takeWhile proofTailClass
    let rest2 := pr.2.dropWhile proofTailClass
    tRun.contains '.' ||
      (match rest2.dropWhile isSpaceChar with
       | c :: _ => c = ':' ∨ c = '.'
       | [] => false)
  | none => false

/-- `proof_pattern` (the `$`-anchored variant with the suffix optional):
matches exactly when nothing follows the trailing run, or only whitespace
and a single final `:` or `.` follow it. -/
def proofFullMatch (s : List Char) : Bool :=
  match firstMarkerIC ["Chứng minh", "Proof", "Lời giải"]
      (proofPrefixLoopAux s.length s) with
  | some pr =>
    let rest2 := pr.2.dropWhile proofTailClass
    rest2.isEmpty ||
      decide (rest2.dropWhile isSpaceChar = [':']) ||
      decide (rest2.dropWhile isSpaceChar = ['.'])
  | none => false

/-- `explicit_section_pattern`
(`^(PHẦN|PHỤ LỤC|CHƯƠNG|SECTION|APPENDIX)\s+([A-Z0-9\.]+)`, ignore-case; the
ignore-case flag makes `[A-Z]` accept both cases). -/
def explicitSectionMatch (s : List Char) : Bool :=
  match firstMarkerIC ["PHẦN", "PHỤ LỤC", "CHƯƠNG", "SECTION", "APPENDIX"] s with
  | some pr =>
    let ws := pr.2.takeWhile isSpaceChar
    let r2 := pr.2.dropWhile isSpaceChar
    (!ws.isEmpty) &&
      (match r2 with
       | c :: _ => c.isAlpha ∨ c.isDigit ∨ c = '.'
       | [] => false)
  | none => false

/-- `paragraph_header_pattern` (`^([^\.]+?):`): lazy group, so the earliest
colon at position ≥ 1 with no dot before it; returns the group. -/
def paraHeaderGo (acc : List Char) : List Char → Option (List Char)
  | [] => none
  | c :: rest =>
    if c = '.' then none
    else if c = ':' ∧ acc ≠ [] then some acc
    else paraHeaderGo (acc ++ [c]) rest

/-- `re.sub(r'\\[a-zA-Z]+\{', '', text)` (fuel scanner). -/
def stripCmdBracesAux : Nat → List Char → List Char
  | 0, s => s
  | _ + 1, [] => []
  | fuel + 1, c :: rest =>
    if c = '\\' then
      let run := rest.takeWhile Char.isAlpha
      if ¬run.isEmpty then
        match rest.drop run.length with
        | '\x7b' :: r2 => stripCmdBracesAux fuel r2
        | _ => c :: stripCmdBracesAux fuel rest
      else c :: stripCmdBracesAux fuel rest
    else c :: stripCmdBracesAux fuel rest

/-- `clean_text_for_check`: strip `\cmd{` occurrences, then remove `}`. -/
def cleanTextForCheck (s : List Char) : List Char :=
  replaceChar '\x7d' [] (stripCmdBracesAux s.length s)

/-- Count of leading `(\.\s*)` repetitions. -/
def dotRunCountAux : Nat → List Char → Nat
  | 0, _ => 0
  | fuel + 1, s =>
    match s with
    | '.' :: rest => 1 + dotRunCountAux fuel (rest.dropWhile isSpaceChar)
    | _ => 0

/-- `re.search(r'(\.\s*){4,}|…{3,}', s)`. -/
def tocLineSearchAux : Nat → List Char → Bool
  | 0, _ => false
  | _ + 1, [] => false
  | fuel + 1, c :: rest =>
    (dotRunCountAux (c :: rest).length (c :: rest) ≥ 4) ||
      (((c :: rest).takeWhile (fun d => d = '…')).length ≥ 3) ||
      tocLineSearchAux fuel rest

/-- Occurrence anywhere of the dot-leader pattern. -/
def tocLineSearch (s : List Char) : Bool := tocLineSearchAux s.length s

/-- Python `str.split(sep)` with a nonempty separator (fuel recursion). -/
def splitOnSubstrAux (pat : List Char) : Nat → List Char → List (List Char)
  | 0, s => [s]
  | _ + 1, [] => [[]]
  | fuel + 1, c :: rest =>
    if pat ≠ [] ∧ pat.isPrefixOf (c :: rest) then
      [] :: splitOnSubstrAux pat fuel ((c :: rest).drop pat.length)
    else
      match splitOnSubstrAux pat fuel rest with
      | w :: ws => (c :: w) :: ws
      | [] => [[c]]

/-- Python `str.split(sep)`. -/
def splitOnSubstr (pat s : List Char) : List (List Char) :=
  splitOnSubstrAux pat s.length s

/-- `re.sub(r'\\begin\{tabular\}.*?(\n|$)', '', raw)`: deletes the marker and
everything to the first newline (inclusive), or to the end. -/
def beginTabularSubAux : Nat → List Char → List Char
  | 0, s => s
  | _ + 1, [] => []
  | fuel + 1, c :: rest =>
    if "\\begin\x7btabular\x7d".data.isPrefixOf (c :: rest) then
      let after := (c :: rest).drop 15
      let run := after.takeWhile (fun d => ¬(d = '\n'))
      match after.drop run.length with
      | '\n' :: r2 => beginTabularSubAux fuel r2
      | _ => []
    else c :: beginTabularSubAux fuel rest

/-- The table-of-contents rewrite of refinement rule 4: strip the tabular
wrapper and re-emit each row as `label \dotfill page`. -/
def tocTransform (raw : List Char) : List Char :=
  let r := beginTabularSubAux raw.length raw
  let r := replaceSubstr "\\end\x7btabular\x7d".data [] r
  let r := replaceSubstr "\\begin\x7bcenter\x7d".data [] r
  let r := replaceSubstr "\\end\x7bcenter\x7d".data [] r
  let r := replaceSubstr "\\hline".data [] r
  let lines := (splitOnSubstr "\\\\".data r).foldl
    (fun acc line =>
      if pyStrip line = [] then acc
      else
        let parts := splitOnSubstr ['&'] line
        if parts.length > 1 then
          acc ++ [pyStrip (parts.headD []) ++ " \\dotfill ".data ++
            pyStrip ((parts.getLast?).getD [])]
        else acc ++ [pyStrip line])
    []
  List.intercalate "\n\n".data lines

/-- The Vietnamese uppercase letters listed in `VN_UPPER` (besides `A-Z`). -/
def vnUpperChars : List Char :=
  "ÁÀẢÃẠĂẮẰẲẴẶÂẤẦẨẪẬĐÉÈẺẼẸÊẾỀỂỄỆÍÌỈĨỊÓÒỎÕỌÔỐỒỔỖỘƠỚỜỞỠỢÚÙỦŨỤƯỨỪỬỮỰÝỲỶỸỴ".data

/-- Membership in the `VN_UPPER` class (`A-Z` plus the listed letters). -/
def isVnUpperClassChar (c : Char) : Bool :=
  ('A' ≤ c ∧ c ≤ 'Z') || vnUpperChars.contains c

/-- `[A-ZÁ-Ỹ]` (codepoint range `U+00C1`–`U+1EF8`). -/
def isCapChar (c : Char) : Bool :=
  ('A' ≤ c ∧ c ≤ 'Z') || ('Á' ≤ c ∧ c ≤ 'Ỹ')

/-- `[a-zá-ỹ]` (codepoint range `U+00E1`–`U+1EF9`). -/
def isLowChar (c : Char) : Bool :=
  ('a' ≤ c ∧ c ≤ 'z') || ('á' ≤ c ∧ c ≤ 'ỹ')

/-- `^([cls]{5,50}?)\s+([A-ZÁ-Ỹ][a-zá-ỹ].*)` with `re.DOTALL`: the lazy
group tries lengths 5..50 in order; returns `(group1, group2)`. -/
def vnSplitTry (cls : Char → Bool) (s : List Char) : Option (List Char × List Char) :=
  (List.range 46).foldl
    (fun acc i =>
      match acc with
      | some pr => some pr
      | none =>
        let k := 5 + i
        let g := s.take k
        if g.length = k ∧ g.all cls then
          let rest := s.drop k
          let ws := rest.takeWhile isSpaceChar
          let r2 := rest.dropWhile isSpaceChar
          match r2 with
          | a :: b :: r3 =>
            if ¬ws.isEmpty ∧ isCapChar a ∧ isLowChar b then some (g, a :: b :: r3)
            else none
          | _ => none
        else none)
    none

/-- The class of the splitting/promotion group-1 pattern
(`[VN_UPPER\s\(\)0-9\.]`). -/
def isVnGroupChar (c : Char) : Bool :=
  isVnUpperClassChar c || isSpaceChar c || c = '(' || c = ')' || c.isDigit || c = '.'

/-- The class of heuristic 1 (`[VN_UPPER\s0-9\.]`). -/
def isVnH1Char (c : Char) : Bool :=
  isVnUpperClassChar c || isSpaceChar c || c.isDigit || c = '.'

/-- The class of the heuristic-2 candidate check (`[VN_UPPER\s0-9\.\:]`). -/
def isVnH2Char (c : Char) : Bool :=
  isVnUpperClassChar c || isSpaceChar c || c.isDigit || c = '.' || c = ':'

/-- `re.match(r'^(.{5,50}?)(:|.)\s+(.*)', text, re.DOTALL)`: the second group
matches **any** character, so the lazy first group stops at the earliest
position followed by one character and at least one whitespace character.
Returns `(group1, group2 char, group3)`. -/
def splitHeaderDotTry (s : List Char) : Option (List Char × Char × List Char) :=
  (List.range 46).foldl
    (fun acc i =>
      match acc with
      | some pr => some pr
      | none =>
        let k := 5 + i
        let g1 := s.take k
        if g1.length = k then
          match s.drop k with
          | c2 :: rest =>
            let ws := rest.takeWhile isSpaceChar
            if ¬ws.isEmpty then some (g1, c2, rest.dropWhile isSpaceChar)
            else none
          | [] => none
        else none)
    none

/-- Stage 1 of the `_refine_semantics` per-item pipeline: page-1 abstract retype. -/
def refineItem1 (pageNum : Nat) (text : List Char) (item0 : MItem) : MItem :=
  if pageNum = 1 ∧ abstractMatch text then { item0 with type := "abstract" } else item0

/-- Stage 2: explicit numbered-section retype. -/
def refineItem2 (text : List Char) (item1 : MItem) : MItem :=
  if explicitSectionMatch text then { item1 with type := "section" } else item1

/-- Stage 3: short bold-header paragraph becomes a raw `\paragraph` block. -/
def refineItem3 (text : List Char) (item2 : MItem) : MItem :=
  if item2.type = "paragraph" then
    match paraHeaderGo [] text with
    | some header =>
      if (pyWords header).length < 6 ∧ text.length > header.length + 2 then
        let newLatex : String := ⟨"\\paragraph\x7b".data ++ escapeLatex header ++
          ":\x7d ".data ++ escapeLatex (pyStrip (text.drop (header.length + 1)))⟩
        { item2 with type := "raw_latex", latex := some newLatex, text := none }
      else item2
    | none => item2
  else item2

/-- Stage 4: theorem-marker retype on the cleaned text. -/
def refineItem4 (cleanCheck : List Char) (item3 : MItem) : MItem :=
  if theoremPatternMatch cleanCheck ∧ cleanCheck.length > 10 then
    { item3 with type := "theorem" }
  else item3

/-- Stage 5: proof-marker retype. -/
def refineItem5 (text : List Char) (item4 : MItem) : MItem :=
  if proofStartMatch text ∨ proofFullMatch text then { item4 with type := "proof" }
  else item4

/-- Stage 6: tables whose content looks like a table of contents. -/
def refineItem6 (item5 : MItem) : MItem :=
  if item5.type = "table" then
    let tableContent :=
      if strTruthy item5.latex then (item5.latex.getD "").data
      else (item5.text.getD "").data
    if tocLineSearch tableContent then
      if strTruthy item5.latex then
        let newLatex : String := ⟨tocTransform (item5.latex.getD "").data⟩
        { item5 with type := "raw_latex", latex := some newLatex }
      else if strTruthy item5.text then { item5 with type := "paragraph" }
      else { item5 with type := "raw_latex" }
    else item5
  else item5

/-- Stage 7: short all-uppercase paragraph promoted to a section. -/
def refineItem7 (text : List Char) (item6 : MItem) : MItem :=
  if item6.type = "paragraph" ∧ text.length < 100 then
    let isMath := ['=', '<', '>', '≤', '≥', '∫', '∑'].any (fun c => text.contains c)
    if ¬isMath then
      let ws := pyWords text
      if ws.length ≥ 3 then
        let upperCount := (ws.filter
          (fun w =>
            ((w.any (fun c => c.isAlpha)) ∧ (w.filter Char.isAlpha).all Char.isUpper) ∨
              ¬(w ≠ [] ∧ w.all Char.isAlpha))).length
        if upperCount ≥ ws.length - 1 then { item6 with type := "section" } else item6
      else item6
    else item6
  else item6

/-- Final stage: long section/paragraph items may be split into a heading plus a
paragraph; otherwise the item is appended unchanged. -/
def refineFinish (text cleanCheck : List Char) (acc : List MItem) (item7 : MItem) :
    List MItem :=
  let shouldCheck : Bool :=
    decide (item7.type = "section") ||
      (decide (item7.type = "paragraph") && decide (text.length > 100) &&
        (match vnSplitTry isVnGroupChar cleanCheck with
         | some pr => decide ((pyWords pr.1).length > 2)
         | none => false))
  if shouldCheck && decide ((pyWords text).length > 20) then
    let h1 : Option (List Char × List Char) :=
      match findOcc ['\n'] text with
      | some pr =>
        let ph := pyStrip pr.1
        if (pyWords ph).length < 20 ∧ ph ≠ [] ∧ ph.all isVnH1Char then
          some (ph, pyStrip pr.2)
        else none
      | none => none
    let h2 : Option (List Char × List Char) :=
      match h1 with
      | some pr => some pr
      | none =>
        match splitHeaderDotTry text with
        | some pr =>
          let candidate := pr.1 ++ [pr.2.1]
          if (candidate ≠ [] ∧ candidate.all isVnH2Char) ∨
              explicitSectionMatch candidate then
            some (candidate, pr.2.2)
          else none
        | none => none
    let h3 : Option (List Char × List Char) :=
      match h2 with
      | some pr => some pr
      | none =>
        match vnSplitTry isVnGroupChar text with
        | some pr =>
          let hCand := pyStrip pr.1
          if (pyWords hCand).length < 15 ∧ hCand.length > 5 then
            some (hCand, pyStrip pr.2)
          else none
        | none => none
    match h3 with
    | some pr =>
      if pr.1 ≠ [] ∧ pr.2 ≠ [] then
        acc ++ [{ item7 with type := "section", text := some ⟨pr.1⟩ },
                ⟨"paragraph", some ⟨pr.2⟩, none, none, none⟩]
      else acc ++ [item7]
    | none => acc ++ [item7]
  else acc ++ [item7]

/-- One item of the `_refine_semantics` loop, appended to the accumulator
(`continue` drops the item; a successful split appends two items). -/
def refineStep (pageNum : Nat) (acc : List MItem) (item0 : MItem) : List MItem :=
  let text := pyStrip (item0.text.getD "").data
  if text = [] ∧ ¬(strTruthy item0.latex) ∧ ¬(strTruthy item0.image_path) then acc
  else
    refineFinish text (cleanTextForCheck text) acc
      (refineItem7 text (refineItem6 (refineItem5 text
        (refineItem4 (cleanTextForCheck text)
          (refineItem3 text (refineItem2 text (refineItem1 pageNum text item0)))))))

/-- `_refine_semantics`. -/
def refineSemantics (items : List MItem) (pageNum : Nat) : List MItem :=
  items.foldl (refineStep pageNum) []

/-- The `theorem` branch of `_generate_page`: the separator alternative
`(:|.)` of its label regex matches any character (with `re.DOTALL`), so the
lazy label group is always empty when at least one character follows the
marker; the match fails only when nothing follows.  Returns
`(matched marker, group 2 label, group 4 content)`. -/
def theoremRenderMatch (text : List Char) : Option (String × List Char × List Char) :=
  match firstMarkerIC theoremMarkers text with
  | some pr =>
    match pr.2 with
    | _ :: r2 => some (pr.1, [], r2.dropWhile isSpaceChar)
    | [] => none
  | none => none

/-- The LaTeX fragment emitted for a `theorem` item by `_generate_page`. -/
def renderTheoremItem (text : String) : String :=
  match theoremRenderMatch text.data with
  | some m =>
    let prefixType := m.1.data.map lowerChar
    let envName : String :=
      if containsSub "lemma".data prefixType ∨ containsSub "bổ đề".data prefixType then
        "lemma"
      else "theorem"
    let label := pyStrip m.2.1
    let content := pyStrip m.2.2
    let optArg := if label ≠ [] ∧ label.length < 20 then "[".data ++ label ++ "]".data else []
    ⟨"\\begin\x7b".data ++ envName.data ++ "\x7d".data ++ optArg ++ "\n".data ++
      escapeLatex content ++ "\n\\end\x7b".data ++ envName.data ++ "\x7d\n\n".data⟩
  | none =>
    ⟨"\\begin\x7btheorem\x7d\n".data ++ escapeLatex text.data ++
      "\n\\end\x7btheorem\x7d\n\n".data⟩

/-- `re.sub(r'^(Proof|Tóm tắt|Chứng minh)(\s*[.:])?\s*', '', text,
re.IGNORECASE)`: the optional group consumes whitespace and one `.`/`:` when
present, then trailing whitespace is consumed. -/
def stripProofMarker (s : List Char) : List Char :=
  match firstMarkerIC ["Proof", "Tóm tắt", "Chứng minh"] s with
  | some pr =>
    let r2 :=
      match pr.2.dropWhile isSpaceChar with
      | c :: r3 => if c = '.' ∨ c = ':' then r3 else pr.2
      | [] => pr.2
    r2.dropWhile isSpaceChar
  | none => s

/-- The LaTeX fragment emitted for a `proof` item by `_generate_page`. -/
def renderProofItem (text : String) : String :=
  ⟨"\\begin\x7bproof\x7d\n".data ++ escapeLatex (stripProofMarker text.data) ++
    "\n\\end\x7bproof\x7d\n\n".data⟩

/-! ## Spec-modelled comparison definitions

These definitions follow the specification's words (not the source); they
exist only to be compared against the source-derived definitions above. -/

/-- Modelled from the spec (claim C4 wording): clustering that "starts a new
cluster exactly when the vertical gap between consecutive rows exceeds
max(1.5 × previous row height, 50px)". -/
def clusterWalkSpec (prev : Box) (cur : List Box) (acc : List (List Box)) :
    List Box → List (List Box)
  | [] => acc ++ [cur]
  | r :: rs =>
    let gap := r.y0 - prev.y1
    if gap > max (3/2 * (prev.y1 - prev.y0)) 50 then
      clusterWalkSpec r [r] (acc ++ [cur]) rs
    else
      clusterWalkSpec r (cur ++ [r]) acc rs

/-- Modelled from the spec: clusters under the max-rule. -/
def clusterRowsSpec : List Box → List (List Box)
  | [] => []
  | r0 :: rest => clusterWalkSpec r0 [r0] [] rest

/-- `min(r.x0 for r in cluster)`. -/
def clusterMinX : List Box → ℚ
  | [] => 0
  | r :: rs => rs.foldl (fun m b => min m b.x0) r.x0

/-- `max(r.x1 for r in cluster)`. -/
def clusterMaxX : List Box → ℚ
  | [] => 0
  | r :: rs => rs.foldl (fun m b => max m b.x1) r.x1

/-- Modelled from the spec (claim C4 wording): "each cluster's union bounding
box padded by 10px (clamped to the image) becomes one table region". -/
def fallbackRegionsSpec (w h : ℚ) (rows : List Box) : List Box :=
  (clusterRowsSpec rows).map
    (fun cl =>
      ⟨max 0 (clusterMinX cl - 10), max 0 (clusterMinY cl - 10),
       min w (clusterMaxX cl + 10), min h (clusterMaxY cl + 10)⟩)

/-- The amended clustering rule (what the code does): a new cluster exactly
when the gap exceeds the **smaller** of 1.5× the previous row height and
50px. -/
def clusterWalkMin (prev : Box) (cur : List Box) (acc : List (List Box)) :
    List Box → List (List Box)
  | [] => acc ++ [cur]
  | r :: rs =>
    let gap := r.y0 - prev.y1
    if gap > min (3/2 * (prev.y1 - prev.y0)) 50 then
      clusterWalkMin r [r] (acc ++ [cur]) rs
    else
      clusterWalkMin r (cur ++ [r]) acc rs

/-- Clusters under the min-rule. -/
def clusterRowsMin : List Box → List (List Box)
  | [] => []
  | r0 :: rest => clusterWalkMin r0 [r0] [] rest

/-- A cell's stripped content contains a math/markup-control character. -/
def cellHasMathMark (c : TableCell) : Bool :=
  mathSyms.any (fun ch => (pyStrip c.content.data).contains ch)

/-- A cell's stripped content has an alphabetic character. -/
def cellHasAlpha (c : TableCell) : Bool :=
  (pyStrip c.content.data).any Char.isAlpha

/-- A cell's first alphabetic character is lowercase. -/
def cellFirstAlphaLower (c : TableCell) : Bool :=
  match (pyStrip c.content.data).filter Char.isAlpha with
  | ch :: _ => ch.isLower
  | [] => false

/-- Modelled from the spec (claim C5 wording): reject when (a) no filled
cell, or (b) excluding cells whose content contains math/markup-control
characters, more than 80% of the remaining filled cells have a lowercase
first alphabetic character, or (c) at most one distinct column index and
more than two distinct row indices. -/
def isFalsePositiveTableClaim (cells : List TableCell) : Bool :=
  let filled := cells.filter (fun c => !(c.content.isEmpty))
  let rem := filled.filter (fun c => !(cellHasMathMark c))
  let lower := rem.countP cellFirstAlphaLower
  decide (filled = []) ||
    decide (5 * lower > 4 * rem.length) ||
    (decide (((cells.map (fun c => c.col_idx)).dedup).length ≤ 1) &&
     decide (((cells.map (fun c => c.row_idx)).dedup).length > 2))

/-- The amended validator characterization (what the code computes): the
denominator counts filled cells that contain a math/markup character **or**
an alphabetic character; math-marked cells are never counted lowercase; if
the denominator is zero the table is accepted outright, skipping the
single-column heuristic. -/
def isFalsePositiveTableAmended (cells : List TableCell) : Bool :=
  let filled := cells.filter (fun c => !(c.content.isEmpty))
  let valid := filled.countP (fun c => cellHasMathMark c || cellHasAlpha c)
  let lower := filled.countP (fun c => !(cellHasMathMark c) && cellFirstAlphaLower c)
  decide (filled = []) ||
    (decide (valid ≠ 0) && decide (5 * lower > 4 * valid)) ||
    (decide (valid ≠ 0) && !(decide (5 * lower > 4 * valid)) &&
     decide (((cells.map (fun c => c.col_idx)).dedup).length ≤ 1) &&
     decide (((cells.map (fun c => c.row_idx)).dedup).length > 2))

/-- Modelled from the spec (claim C6 wording): the paragraph-break decision
as the priority cascade the spec states — column change, else huge gap, else
all-caps heading, else hyphen merges, else (no sentence end → break only on
a large gap; sentence end → break on a large gap or a block-type change). -/
def shouldBreakSpec (prevBlock block : LayoutBlock) (prevEntry : List Char)
    (currText : Option String) : Bool :=
  let vGap := block.bbox.y0 - prevBlock.bbox.y1
  let xDiff := |block.bbox.x0 - prevBlock.bbox.x0|
  let isLargeGap := decide (vGap > 4/100)
  let isHugeGap := decide (vGap > 10/100)
  let isColChange := decide (xDiff > 10/100)
  let pt := pyStrip prevEntry
  let endsSentence :=
    endsWithAny pt [".", "!", "?", ":"] || endsWithAny pt [".\"", "!\"", "?\""]
  let endsHyphen := endsWithAny pt ["-"]
  let isUpper :=
    match currText with
    | some t => if !t.isEmpty then isUppercaseHeader t.data else false
    | none => false
  isColChange || isHugeGap || isUpper ||
    (!endsHyphen &&
      (if !endsSentence then isLargeGap
       else isLargeGap || decide (block.block_type ≠ prevBlock.block_type)))

/-! ## Concrete claim inputs -/

/-- Claim C1 scenario: two rows, two columns, one spanning cell covering
row 0 across both columns, all non-spanning scores 0.9, span score `s`;
image 100×20. -/
def c1Dets (s : ℚ) : List Det :=
  [⟨⟨0, 0, 100, 10⟩, .tableRow, 9/10⟩,
   ⟨⟨0, 10, 100, 20⟩, .tableRow, 9/10⟩,
   ⟨⟨0, 0, 50, 20⟩, .tableColumn, 9/10⟩,
   ⟨⟨50, 0, 100, 20⟩, .tableColumn, 9/10⟩,
   ⟨⟨0, 0, 100, 10⟩, .tableSpanningCell, s⟩]

/-- The three cells claim C1's scenario expects (one `colSpan=2` cell at
`(0,0)`, 1×1 cells at `(1,0)` and `(1,1)`). -/
def c1Cells3 : List TableCell :=
  [⟨⟨0, 0, 100, 10⟩, 0, 0, 1, 2, "", false⟩,
   ⟨⟨0, 10, 50, 20⟩, 1, 0, 1, 1, "", false⟩,
   ⟨⟨50, 10, 100, 20⟩, 1, 1, 1, 1, "", false⟩]

/-- The sorted object lists `collectDets` produces for the C1 scenario. -/
def c1Collected : Collected :=
  ⟨[], [⟨0, 0, 100, 10⟩, ⟨0, 10, 100, 20⟩], [],
   [⟨0, 0, 50, 20⟩, ⟨50, 0, 100, 20⟩], [⟨0, 0, 100, 10⟩]⟩

/-- Claim C2 counterexample region: two rows, two columns and **two
overlapping spanning cells** — one covering row 0 across both columns, one
covering column 1 across both rows; both claim index `(0,1)`. -/
def c2Rows : List Box := [⟨0, 0, 100, 10⟩, ⟨0, 10, 100, 20⟩]

/-- Columns of the C2 counterexample region. -/
def c2Cols : List Box := [⟨0, 0, 50, 20⟩, ⟨50, 0, 100, 20⟩]

/-- The two overlapping spanning boxes of the C2 counterexample. -/
def c2Spans : List Box := [⟨0, 0, 100, 10⟩, ⟨50, 0, 100, 20⟩]

/-- A single, non-overlapping spanning box (for the C2 witness). -/
def c2WitSpans : List Box := [⟨0, 0, 100, 10⟩]

/-- Claim C3 input: two separated row clusters (a two-row, one-column table
each) on a 100×200 image. -/
def c3Dets : List Det :=
  [⟨⟨0, 10, 100, 20⟩, .tableRow, 9/10⟩,
   ⟨⟨0, 20, 100, 30⟩, .tableRow, 9/10⟩,
   ⟨⟨0, 150, 100, 160⟩, .tableRow, 9/10⟩,
   ⟨⟨0, 160, 100, 170⟩, .tableRow, 9/10⟩,
   ⟨⟨0, 10, 100, 30⟩, .tableColumn, 9/10⟩,
   ⟨⟨0, 150, 100, 170⟩, .tableColumn, 9/10⟩]

/-- An OCR callback that returns empty text for the first table's cells and
`B1` for the second's, never raising. -/
def c3OkCb : IntBox → Except String String :=
  fun b => Except.ok (if b.y0 ≥ 100 then "B1" else "")

/-- An OCR callback that raises on the first table's cells. -/
def c3ErrCb : IntBox → Except String String :=
  fun b => if b.y0 < 100 then Except.error "boom" else Except.ok "B1"

/-- Claim C4 counterexample rows: heights 10, vertical gap 20 (20 exceeds
1.5×10 but not 50). -/
def c4Rows : List Box := [⟨0, 0, 100, 10⟩, ⟨0, 30, 100, 40⟩]

/-- Claim C5 counterexample: four lowercase one-letter cells and one
math-marked cell, in five distinct columns. -/
def c5CexCells : List TableCell :=
  [⟨⟨0, 0, 10, 10⟩, 0, 0, 1, 1, "a", false⟩,
   ⟨⟨10, 0, 20, 10⟩, 0, 1, 1, 1, "b", false⟩,
   ⟨⟨20, 0, 30, 10⟩, 0, 2, 1, 1, "c", false⟩,
   ⟨⟨30, 0, 40, 10⟩, 0, 3, 1, 1, "d", false⟩,
   ⟨⟨40, 0, 50, 10⟩, 0, 4, 1, 1, "x=1", false⟩]

/-- Claim C5 scenario: a single column of lowercase prose cells. -/
def c5ScenCells : List TableCell :=
  [⟨⟨0, 0, 10, 10⟩, 0, 0, 1, 1, "the", false⟩,
   ⟨⟨0, 10, 10, 20⟩, 1, 0, 1, 1, "cat sat", false⟩,
   ⟨⟨0, 20, 10, 30⟩, 2, 0, 1, 1, "on the mat", false⟩,
   ⟨⟨0, 30, 10, 40⟩, 3, 0, 1, 1, "quietly", false⟩]

/-- Claim C6 scenario blocks: same `x0`, 2% page-height vertical gap,
mid-page (so no title/section heuristics fire). -/
def c6Block1 : LayoutBlock := ⟨⟨2/10, 50/100, 8/10, 52/100⟩, 1, none, none, false, "text"⟩

/-- Second block of the C6 scenario. -/
def c6Block2 : LayoutBlock := ⟨⟨2/10, 54/100, 8/10, 56/100⟩, 1, none, none, false, "text"⟩

/-- Contents of the C6 scenario. -/
def c6Contents : List ExtractedContent :=
  [⟨some "Experimental", none, none⟩, ⟨some "Results", none, none⟩]

/-- Claim C7 scenario items. -/
def c7Item1 : MItem := ⟨"paragraph", some "THEOREM 2.1. For all x...", none, none, none⟩

/-- Second item of the C7 scenario. -/
def c7Item2 : MItem := ⟨"paragraph", some "PROOF. Suppose...", none, none, none⟩

/-- Claim C8 block: mid-page, no label, no font data. -/
def c8Block : LayoutBlock := ⟨⟨2/10, 5/10, 8/10, 52/100⟩, 1, none, none, false, "text"⟩

/-- The twelve characters escaped by `_escape_simple`. -/
def reservedChars : List Char :=
  ['\\', '&', '%', '$', '#', '_', '\x7b', '\x7d', '~', '^', '<', '>']

/-- Claim C10 failing input: two rows, one full-width column and one
spanning cell covering both rows; the reconstructor returns a single cell
with `row_idx = 0`, `row_span = 2`. -/
def c10Dets : List Det :=
  [⟨⟨0, 0, 100, 10⟩, .tableRow, 9/10⟩,
   ⟨⟨0, 10, 100, 20⟩, .tableRow, 9/10⟩,
   ⟨⟨0, 0, 100, 20⟩, .tableColumn, 9/10⟩,
   ⟨⟨0, 0, 100, 20⟩, .tableSpanningCell, 9/10⟩]

/-- The single spanning cell the reconstructor produces for `c10Dets`. -/
def c10Cell : TableCell := ⟨⟨0, 0, 100, 20⟩, 0, 0, 2, 1, "", false⟩

/-! ## General lemmas -/

theorem stableInsert_perm (le : α → α → Bool) (a : α) (l : List α) :
    (stableInsert le a l).Perm (a :: l) := by
  induction l with
  | nil => simp [stableInsert]
  | cons b bs ih =>
    simp only [stableInsert]
    split
    · exact List.Perm.refl _
    · exact ((ih.cons b).trans (List.Perm.swap a b bs))

theorem pySortBy_perm (le : α → α → Bool) (l : List α) :
    (pySortBy le l).Perm l := by
  induction l with
  | nil => simp [pySortBy]
  | cons a as ih =>
    exact (stableInsert_perm le a (pySortBy le as)).trans (ih.cons a)

theorem foldl_min_le_start (xs : List Nat) (x : Nat) : xs.foldl Nat.min x ≤ x := by
  induction xs generalizing x with
  | nil => simp
  | cons y ys ih => exact le_trans (ih (Nat.min x y)) (Nat.min_le_left x y)

theorem foldl_min_le_mem (xs : List Nat) (x : Nat) (a : Nat) (h : a ∈ xs) :
    xs.foldl Nat.min x ≤ a := by
  induction xs generalizing x with
  | nil => cases h
  | cons y ys ih =>
    rcases List.mem_cons.mp h with h1 | h2
    · subst h1
      exact le_trans (foldl_min_le_start ys (Nat.min x a)) (Nat.min_le_right x a)
    · exact ih (Nat.min x y) h2

theorem listMin_le_mem (l : List Nat) (a : Nat) (h : a ∈ l) : listMin l ≤ a := by
  cases l with
  | nil => cases h
  | cons x xs =>
    rcases List.mem_cons.mp h with h1 | h2
    · subst h1; exact foldl_min_le_start xs a
    · exact foldl_min_le_mem xs x a h2

theorem start_le_foldl_max (xs : List Nat) (x : Nat) : x ≤ xs.foldl Nat.max x := by
  induction xs generalizing x with
  | nil => simp
  | cons y ys ih => exact le_trans (Nat.le_max_left x y) (ih (Nat.max x y))

theorem mem_le_foldl_max (xs : List Nat) (x : Nat) (a : Nat) (h : a ∈ xs) :
    a ≤ xs.foldl Nat.max x := by
  induction xs generalizing x with
  | nil => cases h
  | cons y ys ih =>
    rcases List.mem_cons.mp h with h1 | h2
    · subst h1
      exact le_trans (Nat.le_max_right x a) (start_le_foldl_max ys (Nat.max x a))
    · exact ih (Nat.max x y) h2

theorem mem_le_listMax (l : List Nat) (a : Nat) (h : a ∈ l) : a ≤ listMax l := by
  cases l with
  | nil => cases h
  | cons x xs =>
    rcases List.mem_cons.mp h with h1 | h2
    · subst h1; exact start_le_foldl_max xs a
    · exact mem_le_foldl_max xs x a h2

theorem foldl_max_mem (xs : List Nat) (x : Nat) : xs.foldl Nat.max x = x ∨ xs.foldl Nat.max x ∈ xs := by
  induction xs generalizing x with
  | nil => left; rfl
  | cons y ys ih =>
    rw [List.foldl_cons]
    rcases ih (Nat.max x y) with h | h
    · rw [h]
      unfold Nat.max
      rcases le_total x y with h2 | h2
      · right
        rw [sup_eq_right.mpr h2]
        exact List.mem_cons_self y ys
      · left
        exact sup_eq_left.mpr h2
    · right; exact List.mem_cons_of_mem y h

theorem listMax_mem (l : List Nat) (h : l ≠ []) : listMax l ∈ l := by
  cases l with
  | nil => exact absurd rfl h
  | cons x xs =>
    rcases foldl_max_mem xs x with h1 | h1
    · rw [listMax, h1]; exact List.mem_cons_self x xs
    · exact List.mem_cons_of_mem x h1

theorem replaceChar_not_mem (c : Char) (rep : List Char) (s : List Char)
    (h : c ∉ s) : replaceChar c rep s = s := by
  induction s with
  | nil => rfl
  | cons x xs ih =>
    have hx : ¬ (x = c) := fun he => h (he ▸ List.mem_cons_self x xs)
    have hxs : c ∉ xs := fun hm => h (List.mem_cons_of_mem x hm)
    have htail := ih hxs
    simp only [replaceChar] at htail ⊢
    simp only [List.flatMap_cons, if_neg hx, htail, List.singleton_append]

theorem replaceSubstrAux_not_contains (p0 : Char) (ps rep : List Char)
    (fuel : Nat) :
    ∀ (s : List Char), containsSub (p0 :: ps) s = false →
      replaceSubstrAux (p0 :: ps) rep fuel s = s := by
  induction fuel with
  | zero => intro s _; rfl
  | succ n ih =>
    intro s h
    cases s with
    | nil => rfl
    | cons c rest =>
      simp only [containsSub, Bool.or_eq_false_iff] at h
      rw [replaceSubstrAux, if_neg (by simp [h.1]), ih rest h.2]

theorem replaceSubstr_not_contains (p0 : Char) (ps rep s : List Char)
    (h : containsSub (p0 :: ps) s = false) : replaceSubstr (p0 :: ps) rep s = s :=
  replaceSubstrAux_not_contains p0 ps rep s.length s h

theorem containsSub_head_mem (c0 : Char) (p s : List Char)
    (h : containsSub (c0 :: p) s = true) : c0 ∈ s := by
  induction s with
  | nil => simp [containsSub, List.isEmpty] at h
  | cons c rest ih =>
    simp only [containsSub, Bool.or_eq_true] at h
    rcases h with h | h
    · have hpre := List.isPrefixOf_iff_prefix.mp h
      have : c0 = c := (List.cons_prefix_cons.mp hpre).1
      rw [← this]; exact List.mem_cons_self _ _
    · exact List.mem_cons_of_mem c (ih h)

theorem replaceSubstr_not_mem_head (c0 : Char) (p rep s : List Char)
    (h : c0 ∉ s) : replaceSubstr (c0 :: p) rep s = s := by
  apply replaceSubstr_not_contains
  cases hc : containsSub (c0 :: p) s with
  | false => rfl
  | true => exact absurd (containsSub_head_mem c0 p s hc) h

theorem refineItem5_id (text : List Char) (i : MItem)
    (h : ¬(proofStartMatch text = true ∨ proofFullMatch text = true)) :
    refineItem5 text i = i := by
  unfold refineItem5
  rw [if_neg h]

theorem refineItem6_id (i : MItem) (h : i.type ≠ "table") :
    refineItem6 i = i := by
  unfold refineItem6
  rw [if_neg h]

theorem refineItem7_id (text : List Char) (i : MItem)
    (h : i.type ≠ "paragraph") :
    refineItem7 text i = i := by
  unfold refineItem7
  rw [if_neg (fun hc => h hc.1)]

theorem refineFinish_append (text cc : List Char) (acc : List MItem)
    (i : MItem) (h1 : i.type ≠ "section") (h2 : i.type ≠ "paragraph") :
    refineFinish text cc acc i = acc ++ [i] := by
  unfold refineFinish
  have hs : (decide (i.type = "section") ||
      (decide (i.type = "paragraph") && decide (text.length > 100) &&
        (match vnSplitTry isVnGroupChar cc with
         | some pr => decide ((pyWords pr.1).length > 2)
         | none => false))) = false := by
    simp [h1, h2]
  rw [hs]
  simp

theorem isPrefixOf_cons_neq (a c : Char) (p s : List Char) (h : ¬ c = a) :
    (a :: p).isPrefixOf (c :: s) = false := by
  simp only [List.isPrefixOf, Bool.and_eq_false_iff, beq_eq_false_iff_ne, ne_eq]
  exact Or.inl (fun he => h he.symm)

theorem subTagAux_no_lt (o cl a b : List Char) (fuel : Nat) :
    ∀ s : List Char, '<' ∉ s → subTagAux o cl a b fuel s = s := by
  induction fuel with
  | zero => intro s _; rfl
  | succ n ih =>
    intro s hs
    cases s with
    | nil => rfl
    | cons c rest =>
      have hc : ¬(c = '<') := fun he => hs (he ▸ List.mem_cons_self c rest)
      have hrest : '<' ∉ rest := fun hm => hs (List.mem_cons_of_mem c hm)
      simp only [subTagAux]
      rw [if_neg (fun hco => hc hco.1), ih rest hrest]

theorem strayMathSubAux_no_lt (fuel : Nat) :
    ∀ s : List Char, '<' ∉ s → strayMathSubAux fuel s = s := by
  induction fuel with
  | zero => intro s _; rfl
  | succ n ih =>
    intro s hs
    cases s with
    | nil => rfl
    | cons c rest =>
      have hc : ¬(c = '<') := fun he => hs (he ▸ List.mem_cons_self c rest)
      have hrest : '<' ∉ rest := fun hm => hs (List.mem_cons_of_mem c hm)
      have h1 : ("<math".data.isPrefixOf (c :: rest)) = false :=
        isPrefixOf_cons_neq '<' c "math".data rest hc
      have h2 : ("</math".data.isPrefixOf (c :: rest)) = false :=
        isPrefixOf_cons_neq '<' c "/math".data rest hc
      simp only [strayMathSubAux, h1, h2, Bool.false_eq_true, if_false,
        ih rest hrest]

theorem boldItalicSplitAux_no_lt (fuel : Nat) :
    ∀ (acc s : List Char), '<' ∉ s →
      boldItalicSplitAux fuel acc s = [acc.reverse ++ s] := by
  induction fuel with
  | zero => intro acc s _; rfl
  | succ n ih =>
    intro acc s hs
    cases s with
    | nil => simp [boldItalicSplitAux]
    | cons c rest =>
      have hc : ¬(c = '<') := fun he => hs (he ▸ List.mem_cons_self c rest)
      have hrest : '<' ∉ rest := fun hm => hs (List.mem_cons_of_mem c hm)
      have h1 : ("<b>".data.isPrefixOf (c :: rest)) = false :=
        isPrefixOf_cons_neq '<' c "b>".data rest hc
      have h2 : ("<i>".data.isPrefixOf (c :: rest)) = false :=
        isPrefixOf_cons_neq '<' c "i>".data rest hc
      simp only [boldItalicSplitAux, h1, h2, Bool.false_eq_true, if_false,
        ih (c :: acc) rest hrest]
      simp

theorem mathSplitAux_no_specials (fuel : Nat) :
    ∀ (acc s : List Char), '<' ∉ s → '$' ∉ s → '\\' ∉ s →
      mathSplitAux fuel acc s = [acc.reverse ++ s] := by
  induction fuel with
  | zero => intro acc s _ _ _; rfl
  | succ n ih =>
    intro acc s h1 h2 h3
    cases s with
    | nil => simp [mathSplitAux]
    | cons c rest =>
      have hc1 : ¬(c = '<') := fun he => h1 (he ▸ List.mem_cons_self c rest)
      have hc2 : ¬(c = '$') := fun he => h2 (he ▸ List.mem_cons_self c rest)
      have hc3 : ¬(c = '\\') := fun he => h3 (he ▸ List.mem_cons_self c rest)
      have hr1 : '<' ∉ rest := fun hm => h1 (List.mem_cons_of_mem c hm)
      have hr2 : '$' ∉ rest := fun hm => h2 (List.mem_cons_of_mem c hm)
      have hr3 : '\\' ∉ rest := fun hm => h3 (List.mem_cons_of_mem c hm)
      simp only [mathSplitAux, if_neg hc1, if_neg hc2, if_neg hc3,
        ih (c :: acc) rest hr1 hr2 hr3]
      simp

theorem escapeSimple_id (s : List Char)
    (h : ∀ c ∈ reservedChars, c ∉ s) : escapeSimple s = s := by
  simp only [escapeSimple]
  rw [replaceChar_not_mem _ _ _ (h '\\' (by decide)),
    replaceChar_not_mem _ _ _ (h '&' (by decide)),
    replaceChar_not_mem _ _ _ (h '%' (by decide)),
    replaceChar_not_mem _ _ _ (h '$' (by decide)),
    replaceChar_not_mem _ _ _ (h '#' (by decide)),
    replaceChar_not_mem _ _ _ (h '_' (by decide)),
    replaceChar_not_mem _ _ _ (h '\x7b' (by decide)),
    replaceChar_not_mem _ _ _ (h '\x7d' (by decide)),
    replaceChar_not_mem _ _ _ (h '~' (by decide)),
    replaceChar_not_mem _ _ _ (h '^' (by decide)),
    replaceChar_not_mem _ _ _ (h '<' (by decide)),
    replaceChar_not_mem _ _ _ (h '>' (by decide))]

theorem processRichText_id (s : List Char)
    (h : ∀ c ∈ reservedChars, c ∉ s) : processRichText s = s := by
  have hlt : '<' ∉ s := h '<' (by decide)
  simp only [processRichText]
  rw [strayMathSubAux_no_lt s.length s hlt, boldItalicSplitAux_no_lt s.length [] s hlt]
  simp only [List.reverse_nil, List.nil_append, List.flatMap_cons, List.flatMap_nil,
    List.append_nil]
  cases s with
  | nil => simp [escapeSimple_id [] (by intro c _ hm; exact absurd hm (List.not_mem_nil c))]
  | cons c rest =>
    have hc : ¬(c = '<') := fun he => hlt (he ▸ List.mem_cons_self c rest)
    have h1 : ("<b>".data.isPrefixOf (c :: rest)) = false :=
      isPrefixOf_cons_neq '<' c "b>".data rest hc
    have h2 : ("<i>".data.isPrefixOf (c :: rest)) = false :=
      isPrefixOf_cons_neq '<' c "i>".data rest hc
    rw [if_neg (fun hco => by rw [h1] at hco; exact absurd hco.1 (by simp)),
      if_neg (fun hco => by rw [h2] at hco; exact absurd hco.1 (by simp)),
      escapeSimple_id (c :: rest) h]

theorem rectIdx_mem (x y r0 r1 c0 c1 : Nat) :
    (x, y) ∈ rectIdx r0 r1 c0 c1 ↔
      (r0 ≤ x ∧ x < r0 + (r1 + 1 - r0) ∧ c0 ≤ y ∧ y < c0 + (c1 + 1 - c0)) := by
  simp only [rectIdx, List.mem_flatMap, List.mem_map, List.mem_range'_1,
    Prod.mk.injEq]
  constructor
  · rintro ⟨a, ⟨ha1, ha2⟩, b, ⟨hb1, hb2⟩, rfl, rfl⟩
    exact ⟨ha1, ha2, hb1, hb2⟩
  · rintro ⟨h1, h2, h3, h4⟩
    exact ⟨x, ⟨h1, h2⟩, y, ⟨h3, h4⟩, rfl, rfl⟩

theorem spanStep_of_none (trows tcols : List Box) (hidx : List Nat)
    (st : SpanState) (s : Box)
    (h : spanRect trows tcols s = none) :
    spanStep trows tcols hidx st s = st := by
  simp only [spanRect] at h
  simp only [spanStep]
  by_cases hc : coveredRows trows s = [] ∨ coveredCols tcols s = []
  · rw [if_pos hc]
  · rw [if_neg hc] at h
    exact absurd h (by simp)

theorem spanStep_of_some (trows tcols : List Box) (hidx : List Nat)
    (st : SpanState) (s : Box) (ra : Nat × Nat × Nat × Nat)
    (h : spanRect trows tcols s = some ra) :
    ∃ fb : Box,
      spanStep trows tcols hidx st s =
        ⟨st.cells ++ [⟨fb, ra.1, ra.2.2.1, ra.2.1 + 1 - ra.1, ra.2.2.2 + 1 - ra.2.2.1,
            "", decide (ra.1 ∈ hidx)⟩],
          st.consumed ++ rectIdx ra.1 ra.2.1 ra.2.2.1 ra.2.2.2⟩ := by
  simp only [spanRect] at h
  simp only [spanStep]
  by_cases hc : coveredRows trows s = [] ∨ coveredCols tcols s = []
  · rw [if_pos hc] at h; exact absurd h (by simp)
  · rw [if_neg hc] at h
    rw [if_neg hc]
    obtain rfl : ra = (listMin (coveredRows trows s),
        listMax (coveredRows trows s),
        listMin (coveredCols tcols s),
        listMax (coveredCols tcols s)) := by
      cases h; rfl
    exact ⟨_, rfl⟩

theorem spanRect_bounds (trows tcols : List Box) (s : Box) (ra : Nat × Nat × Nat × Nat)
    (h : spanRect trows tcols s = some ra) :
    ra.2.1 < trows.length ∧ ra.2.2.2 < tcols.length := by
  simp only [spanRect] at h
  by_cases hc : coveredRows trows s = [] ∨ coveredCols tcols s = []
  · rw [if_pos hc] at h; exact absurd h (by simp)
  · rw [if_neg hc] at h
    push_neg at hc
    obtain rfl : ra = (listMin (coveredRows trows s),
        listMax (coveredRows trows s),
        listMin (coveredCols tcols s),
        listMax (coveredCols tcols s)) := by
      cases h; rfl
    constructor
    · have hm := listMax_mem _ hc.1
      have : listMax (coveredRows trows s) ∈
          List.range trows.length := List.mem_of_mem_filter hm
      simpa using this
    · have hm := listMax_mem _ hc.2
      have : listMax (coveredCols tcols s) ∈
          List.range tcols.length := List.mem_of_mem_filter hm
      simpa using this

theorem cellClaims_span (fb : Box) (r0 r1 c0 c1 : Nat) (s : String) (hd : Bool)
    (r c : Nat) :
    cellClaims ⟨fb, r0, c0, r1 + 1 - r0, c1 + 1 - c0, s, hd⟩ r c =
      decide ((r, c) ∈ rectIdx r0 r1 c0 c1) := by
  rw [cellClaims]
  exact (decide_eq_decide.mpr (rectIdx_mem r c r0 r1 c0 c1).symm)

theorem rectsDisjoint_not_both (ra rb : Nat × Nat × Nat × Nat) (r c : Nat)
    (h : rectsDisjointB ra rb = true)
    (ha : (r, c) ∈ rectIdx ra.1 ra.2.1 ra.2.2.1 ra.2.2.2)
    (hb : (r, c) ∈ rectIdx rb.1 rb.2.1 rb.2.2.1 rb.2.2.2) : False := by
  rw [rectIdx_mem] at ha hb
  rw [rectsDisjointB, decide_eq_true_iff] at h
  omega

theorem spanFold_count (trows tcols : List Box) (hidx : List Nat) (r c : Nat) :
    ∀ (ss : List Box) (st : SpanState),
      spansDisjointB trows tcols ss = true →
      (st.cells.countP (fun cell => cellClaims cell r c) =
        if (r, c) ∈ st.consumed then 1 else 0) →
      (∀ s ∈ ss, ∀ ra, spanRect trows tcols s = some ra →
        (r, c) ∈ rectIdx ra.1 ra.2.1 ra.2.2.1 ra.2.2.2 →
          (r, c) ∉ st.consumed) →
      ((ss.foldl (spanStep trows tcols hidx) st).cells.countP
          (fun cell => cellClaims cell r c) =
        if (r, c) ∈ (ss.foldl (spanStep trows tcols hidx) st).consumed
        then 1 else 0) := by
  intro ss
  induction ss with
  | nil => intro st _ h1 _; exact h1
  | cons s rest ih =>
    intro st hdisj h1 h2
    rw [spansDisjointB, Bool.and_eq_true] at hdisj
    rw [List.foldl_cons]
    cases hrect : spanRect trows tcols s with
    | none =>
      rw [spanStep_of_none trows tcols hidx st s hrect]
      exact ih st hdisj.2 h1 (fun t ht => h2 t (List.mem_cons_of_mem s ht))
    | some ra =>
      obtain ⟨fb, hstep⟩ := spanStep_of_some trows tcols hidx st s ra hrect
      rw [hstep]
      apply ih _ hdisj.2
      · simp only [List.countP_append, List.countP_cons, List.countP_nil,
          cellClaims_span]
        by_cases hmem : (r, c) ∈ rectIdx ra.1 ra.2.1 ra.2.2.1 ra.2.2.2
        · have hnot : (r, c) ∉ st.consumed :=
            h2 s (List.mem_cons_self s rest) ra hrect hmem
          simp [h1, hnot, hmem, List.mem_append]
        · simp [h1, hmem, List.mem_append]
      · intro t ht rb hrb hmemb
        simp only [List.mem_append]
        intro hor
        rcases hor with h | h
        · exact h2 t (List.mem_cons_of_mem s ht) rb hrb hmemb h
        · have hall := hdisj.1
          rw [hrect] at hall
          have := List.all_eq_true.mp hall t ht
          rw [hrb] at this
          exact rectsDisjoint_not_both ra rb r c this h hmemb

theorem spanFold_consumed_range (trows tcols : List Box) (hidx : List Nat)
    (r c : Nat) :
    ∀ (ss : List Box) (st : SpanState),
      ((r, c) ∈ st.consumed → r < trows.length ∧ c < tcols.length) →
      ((r, c) ∈ (ss.foldl (spanStep trows tcols hidx) st).consumed →
        r < trows.length ∧ c < tcols.length) := by
  intro ss
  induction ss with
  | nil => intro st h; exact h
  | cons s rest ih =>
    intro st h
    rw [List.foldl_cons]
    cases hrect : spanRect trows tcols s with
    | none =>
      rw [spanStep_of_none trows tcols hidx st s hrect]
      exact ih st h
    | some ra =>
      obtain ⟨fb, hstep⟩ := spanStep_of_some trows tcols hidx st s ra hrect
      rw [hstep]
      apply ih
      simp only [List.mem_append]
      intro hor
      rcases hor with hm | hm
      · exact h hm
      · rw [rectIdx_mem] at hm
        have hb := spanRect_bounds trows tcols s ra hrect
        omega

theorem countP_filterMap_eq (g : α → Option β) (p : β → Bool) (L : List α) :
    (L.filterMap g).countP p =
      L.countP (fun a => match g a with | some b => p b | none => false) := by
  induction L with
  | nil => rfl
  | cons a l ih =>
    rw [List.filterMap_cons, List.countP_cons]
    cases hg : g a with
    | none => simpa [hg] using ih
    | some b => rw [List.countP_cons]; simp [hg, ih]

theorem countP_range_single (n x : Nat) (p : Nat → Bool)
    (h : ∀ y, p y = true → y = x) :
    (List.range n).countP p = if x < n ∧ p x = true then 1 else 0 := by
  induction n with
  | zero => simp
  | succ m ih =>
    rw [List.range_succ, List.countP_append, ih]
    simp only [List.countP_cons, List.countP_nil]
    by_cases hpx : p x = true
    · by_cases hxm : x = m
      · subst hxm
        simp [hpx, Nat.lt_irrefl, Nat.lt_succ_self]
      · have hpm : p m = false := by
          cases hq : p m with
          | false => rfl
          | true => exact absurd (h m hq) (fun he => hxm he.symm)
        have hiff : (x < m ∧ p x = true) ↔ (x < m + 1 ∧ p x = true) :=
          ⟨fun hh => ⟨by omega, hh.2⟩, fun hh => ⟨by omega, hh.2⟩⟩
        rw [hpm, if_congr hiff rfl rfl]
        simp
    · have hpm : p m = false := by
        cases hq : p m with
        | false => rfl
        | true => exact absurd (h m hq ▸ hq) (by simpa using hpx)
      simp [hpx, hpm]

theorem gapCells_count (trows tcols : List Box) (hidx : List Nat)
    (consumed : List (Nat × Nat)) (r c : Nat) :
    (gapCellsList trows tcols hidx consumed).countP
        (fun cell => cellClaims cell r c) =
      if r < trows.length ∧ c < tcols.length ∧ (r, c) ∉ consumed ∧
          (gridMapAt trows tcols r c).isSome = true then 1 else 0 := by
  have hinner : ∀ r' : Nat,
      ((List.range tcols.length).filterMap
        (fun c' =>
          if (r', c') ∈ consumed then none
          else
            match gridMapAt trows tcols r' c' with
            | some bb => some ⟨bb, r', c', 1, 1, "", decide (r' ∈ hidx)⟩
            | none => none)).countP (fun cell => cellClaims cell r c) =
      if r' = r ∧ c < tcols.length ∧ (r, c) ∉ consumed ∧
          (gridMapAt trows tcols r c).isSome = true then 1 else 0 := by
    intro r'
    by_cases hr : r' = r
    · subst hr
      rw [countP_filterMap_eq]
      rw [countP_range_single tcols.length c _ (by
        intro y hy
        by_cases hm : (r', y) ∈ consumed
        · rw [if_pos hm] at hy; exact absurd hy (by simp)
        · rw [if_neg hm] at hy
          cases hg : gridMapAt trows tcols r' y with
          | none => rw [hg] at hy; exact absurd hy (by simp)
          | some bb =>
            rw [hg] at hy
            simp only [cellClaims, decide_eq_true_iff] at hy
            omega)]
      by_cases hm : (r', c) ∈ consumed
      · simp [hm, cellClaims]
      · cases hg : gridMapAt trows tcols r' c with
        | none => simp [hm, hg]
        | some bb =>
          have hcl : cellClaims ⟨bb, r', c, 1, 1, "", decide (r' ∈ hidx)⟩ r' c
              = true := by
            simp only [cellClaims, decide_eq_true_iff]
            omega
          simp [hm, hg, hcl]
    · rw [if_neg (fun hc2 => hr hc2.1), List.countP_eq_zero]
      intro cell hcell
      rw [List.mem_filterMap] at hcell
      obtain ⟨y, _, hy⟩ := hcell
      by_cases hm : (r', y) ∈ consumed
      · rw [if_pos hm] at hy; exact absurd hy (by simp)
      · rw [if_neg hm] at hy
        cases hg : gridMapAt trows tcols r' y with
        | none => rw [hg] at hy; exact absurd hy (by simp)
        | some bb =>
          rw [hg] at hy
          obtain rfl : cell = ⟨bb, r', y, 1, 1, "", decide (r' ∈ hidx)⟩ := by
            cases hy; rfl
          simp only [cellClaims, decide_eq_true_iff]
          intro hcon
          exact hr (by omega)
  have houter : ∀ n : Nat,
      (((List.range n).flatMap
        (fun r' =>
          (List.range tcols.length).filterMap
            (fun c' =>
              if (r', c') ∈ consumed then none
              else
                match gridMapAt trows tcols r' c' with
                | some bb => some ⟨bb, r', c', 1, 1, "", decide (r' ∈ hidx)⟩
                | none => none))).countP (fun cell => cellClaims cell r c)) =
      if r < n ∧ c < tcols.length ∧ (r, c) ∉ consumed ∧
          (gridMapAt trows tcols r c).isSome = true then 1 else 0 := by
    intro n
    induction n with
    | zero => simp
    | succ m ih =>
      rw [List.range_succ, List.flatMap_append, List.countP_append, ih]
      simp only [List.flatMap_cons, List.flatMap_nil, List.append_nil]
      rw [hinner m]
      by_cases hR : c < tcols.length ∧ (r, c) ∉ consumed ∧
          (gridMapAt trows tcols r c).isSome = true
      · by_cases hrm : r < m
        · have hmr : ¬(m = r) := by omega
          rw [if_pos ⟨hrm, hR⟩, if_neg (fun hcon => hmr hcon.1),
            if_pos ⟨by omega, hR⟩]
        · by_cases hmr : m = r
          · rw [if_neg (fun hcon => hrm hcon.1), if_pos ⟨hmr, hR⟩,
              if_pos ⟨by omega, hR⟩]
          · rw [if_neg (fun hcon => hrm hcon.1), if_neg (fun hcon => hmr hcon.1),
              if_neg (fun hcon => absurd hcon.1 (by omega))]
      · rw [if_neg (fun hcon => hR hcon.2), if_neg (fun hcon => hR hcon.2),
          if_neg (fun hcon => hR hcon.2)]
  exact houter trows.length

theorem fpCount_foldl (l : List TableCell) :
    ∀ a b : Nat, l.foldl fpCountStep (a, b) =
      (a + l.countP (fun c => !(cellHasMathMark c) && cellFirstAlphaLower c),
       b + l.countP (fun c => cellHasMathMark c || cellHasAlpha c)) := by
  induction l with
  | nil => intro a b; simp
  | cons c l ih =>
    intro a b
    rw [List.foldl_cons]
    by_cases hm : cellHasMathMark c = true
    · have hstep : fpCountStep (a, b) c = (a, b + 1) := by
        unfold fpCountStep
        unfold cellHasMathMark at hm
        rw [if_pos hm]
      rw [hstep, ih]
      simp [List.countP_cons, hm, Prod.ext_iff]
      omega
    · have hm' := hm
      unfold cellHasMathMark at hm'
      cases hf : (pyStrip c.content.data).filter Char.isAlpha with
      | nil =>
        have hstep : fpCountStep (a, b) c = (a, b) := by
          unfold fpCountStep
          rw [if_neg (by simp_all), hf]
        have hna : cellHasAlpha c = false := by
          unfold cellHasAlpha
          cases hA : (pyStrip c.content.data).any Char.isAlpha with
          | false => rfl
          | true =>
            exfalso
            rcases List.any_eq_true.mp hA with ⟨x, hx, hpx⟩
            have hmem : x ∈ (pyStrip c.content.data).filter Char.isAlpha :=
              List.mem_filter.mpr ⟨hx, hpx⟩
            rw [hf] at hmem
            cases hmem
        have hfl : cellFirstAlphaLower c = false := by
          unfold cellFirstAlphaLower
          rw [hf]
        rw [hstep, ih]
        simp [List.countP_cons, hm, hna, hfl, Prod.ext_iff]
      | cons c0 tl =>
        have hstep : fpCountStep (a, b) c =
            (a + (if c0.isLower then 1 else 0), b + 1) := by
          unfold fpCountStep
          rw [if_neg (by simp_all), hf]
        have hna : cellHasAlpha c = true := by
          unfold cellHasAlpha
          refine List.any_eq_true.mpr ?_
          have hmem : c0 ∈ (pyStrip c.content.data).filter Char.isAlpha := by
            rw [hf]; exact List.mem_cons_self _ _
          rcases List.mem_filter.mp hmem with ⟨h1, h2⟩
          exact ⟨c0, h1, h2⟩
        have hfl : cellFirstAlphaLower c = c0.isLower := by
          unfold cellFirstAlphaLower
          rw [hf]
        rw [hstep, ih]
        cases hcl : c0.isLower <;>
          simp [List.countP_cons, hm, hna, hfl, hcl, Prod.ext_iff] <;> omega

theorem ratioIff (a b : Nat) (hb : b ≠ 0) :
    ((a:ℚ)/(b:ℚ) > 4/5) ↔ 5 * a > 4 * b := by
  have hb2 : (0:ℚ) < b := by
    exact_mod_cast Nat.pos_of_ne_zero hb
  rw [gt_iff_lt, div_lt_div_iff (by norm_num) hb2, mul_comm (a:ℚ) 5]
  constructor
  · intro h
    exact_mod_cast h
  · intro h
    exact_mod_cast h

theorem ocrCells_ok {ε : Type} (w h : ℤ) (g : IntBox → String)
    (cells : List TableCell) :
    ocrCells w h (fun b => (Except.ok (g b) : Except ε String)) cells =
      Except.ok (ocrCellsPure w h g cells) := by
  induction cells with
  | nil => rfl
  | cons c rest ih =>
    unfold ocrCells ocrCellsPure
    by_cases hcrop : (cropBoxOf w h c.bbox).x1 ≤ (cropBoxOf w h c.bbox).x0 ∨
        (cropBoxOf w h c.bbox).y1 ≤ (cropBoxOf w h c.bbox).y0
    · rw [if_pos hcrop, if_pos hcrop]
      exact ih
    · rw [if_neg hcrop, if_neg hcrop]
      rw [ih]
      rfl

theorem foldErr {ε : Type} (w h : ℤ) (ocr : IntBox → Except ε String)
    (tables : List (List TableCell)) (e : ProcErr ε) :
    tables.foldl
      (fun (acc : Except (ProcErr ε) (List String)) cells =>
        match acc with
        | .error e => .error e
        | .ok outs =>
          match ocrCells w h ocr cells with
          | .error e => .error (.ocr e)
          | .ok cellsC =>
            if isFalsePositiveTable cellsC then .ok outs
            else
              match buildLatex cellsC with
              | none => .error .render
              | some tex => .ok (outs ++ [tex]))
      (Except.error e) = Except.error e := by
  induction tables with
  | nil => rfl
  | cons t ts ih => exact ih

theorem foldNone (w h : ℤ) (g : IntBox → String)
    (tables : List (List TableCell)) :
    tables.foldl
      (fun (acc : Option (List String)) cells =>
        match acc with
        | none => none
        | some outs =>
          let cellsC := ocrCellsPure w h g cells
          if isFalsePositiveTable cellsC then some outs
          else
            match buildLatex cellsC with
            | none => none
            | some tex => some (outs ++ [tex]))
      none = none := by
  induction tables with
  | nil => rfl
  | cons t ts ih => exact ih

theorem clusterWalk_eq_min (l : List Box) :
    ∀ (prev : Box) (cur : List Box) (acc : List (List Box)),
      clusterWalk prev cur acc l = clusterWalkMin prev cur acc l := by
  induction l with
  | nil => intro prev cur acc; rfl
  | cons r rs ih =>
    intro prev cur acc
    simp only [clusterWalk, clusterWalkMin]
    by_cases hc : r.y0 - prev.y1 > min (3/2 * (prev.y1 - prev.y0)) 50
    · rw [if_pos hc, if_pos, ih]
      rw [gt_iff_lt, min_lt_iff] at hc
      rw [gt_iff_lt, gt_iff_lt]
      exact hc
    · rw [if_neg hc, if_neg, ih]
      rw [gt_iff_lt, min_lt_iff] at hc
      rw [gt_iff_lt, gt_iff_lt]
      exact hc

theorem c1_collect (s : ℚ) (h1 : ¬ s < 1/2) (h2 : (1:ℚ)/10 < s) :
    collectDets (c1Dets s) = c1Collected := by
  have e1 : decide ((1:ℚ)/10 < s) = true := decide_eq_true h2
  have e2 : decide ((1:ℚ)/10 < (9:ℚ)/10) = true := by decide
  have e3 : ((9:ℚ)/10 < 1/2) = False := by norm_num
  have e4 : (s < 1/2) = False := eq_false h1
  unfold collectDets c1Dets collectStep
  simp only [List.filter_cons, List.filter_nil, e1, e2, e3, e4, if_true, if_false,
    List.foldl_cons, List.foldl_nil, decide_True, ite_true, ite_false]
  rfl

/-! ## Claim theorems -/

/-- Claim C1, counterexample: the span's score 0.3 lies in the claimed
admissible band `[0.1, 1]`, yet the scenario yields **4** cells (the span is
dropped by the 0.5 cut and gap-filling emits four 1×1 cells), not the claimed
3. -/
theorem c1_counterexample :
    ((1:ℚ)/10 ≤ 3/10 ∧ (3:ℚ)/10 ≤ 1) ∧
      (detectTables 100 20 (c1Dets (3/10))).map List.length = [4] := by
  decide

/-- Claim C1, amended: spanning cells are subject to the **same** 0.5
threshold as standard objects (`if score < 0.5: continue` runs before the
label dispatch); whenever the span's score is at least 0.5 the scenario
yields exactly the 3 claimed cells. -/
theorem c1_amended (s : ℚ) (hlo : 1/2 ≤ s) :
    detectTables 100 20 (c1Dets s) = [c1Cells3] := by
  have h1 : ¬ s < 1/2 := not_lt.mpr hlo
  have h2 : (1:ℚ)/10 < s := lt_of_lt_of_le (by norm_num) hlo
  unfold detectTables
  rw [c1_collect s h1 h2]
  decide

/-- Claim C1, witness: the amended theorem applied at span score 0.7. -/
theorem c1_amended_witness :
    (1:ℚ)/2 ≤ 7/10 ∧ detectTables 100 20 (c1Dets (7/10)) = [c1Cells3] :=
  ⟨by decide, c1_amended (7/10) (by decide)⟩

/-- Claim C2, counterexample: with two overlapping spanning boxes the code
emits two merged cells that both claim grid index `(0, 1)` — the claimed
partition invariant fails. -/
theorem c2_counterexample :
    claimCount (reconstructCells c2Rows c2Cols c2Spans []) 0 1 = 2 := by
  decide

/-- Claim C2, amended: **provided** the base grid is total (every
row×column intersection has positive area) and the spanning boxes' covered
rectangles are pairwise disjoint — neither of which the code checks — every
index inside the row/column extent is claimed by exactly one cell after
gap-filling, and no index outside it is claimed. -/
theorem c2_amended (trows tcols tspans headerBoxes : List Box) (r c : Nat)
    (hgrid : gridTotalB trows tcols = true)
    (hdisj : spansDisjointB trows tcols tspans = true) :
    claimCount (reconstructCells trows tcols tspans headerBoxes) r c =
      if r < trows.length ∧ c < tcols.length then 1 else 0 := by
  have hgrid2 : ∀ r' c', r' < trows.length → c' < tcols.length →
      (gridMapAt trows tcols r' c').isSome = true := by
    intro r' c' h1 h2
    have h3 := List.all_eq_true.mp hgrid r' (List.mem_range.mpr h1)
    exact List.all_eq_true.mp h3 c' (List.mem_range.mpr h2)
  rw [claimCount]
  simp only [reconstructCells]
  rw [(pySortBy_perm cellLe _).countP_eq, List.countP_append]
  rw [spanFold_count trows tcols (headerIdxList trows headerBoxes) r c
    tspans ⟨[], []⟩ hdisj (by simp) (by intro s _ ra _ _; simp)]
  rw [gapCells_count]
  by_cases hin : (r, c) ∈
      (tspans.foldl (spanStep trows tcols
        (headerIdxList trows headerBoxes)) ⟨[], []⟩).consumed
  · have hrange := spanFold_consumed_range trows tcols
      (headerIdxList trows headerBoxes) r c tspans ⟨[], []⟩
      (by intro hmem; exact absurd hmem (by simp)) hin
    rw [if_pos hin, if_neg (fun hcon => hcon.2.2.1 hin), if_pos hrange]
  · rw [if_neg hin]
    by_cases hb : r < trows.length ∧ c < tcols.length
    · rw [if_pos ⟨hb.1, hb.2, hin, hgrid2 r c hb.1 hb.2⟩, if_pos hb]
    · rw [if_neg (fun hcon => hb ⟨hcon.1, hcon.2.1⟩), if_neg hb]

/-- Claim C2, witness: the amended theorem at a concrete total grid with one
non-overlapping span, at index `(0, 1)`. -/
theorem c2_amended_witness :
    gridTotalB c2Rows c2Cols = true ∧
    spansDisjointB c2Rows c2Cols c2WitSpans = true ∧
    claimCount (reconstructCells c2Rows c2Cols c2WitSpans []) 0 1 =
      if 0 < c2Rows.length ∧ 1 < c2Cols.length then 1 else 0 :=
  ⟨by decide, by decide,
    c2_amended c2Rows c2Cols c2WitSpans [] 0 1 (by decide) (by decide)⟩

/-- Claim C3, counterexample: an OCR-callback exception on the first table's
cells propagates out of `process_table` (there is no `try/except` around
`ocr_callback` at `table_recognizer.py:95`) instead of being treated as
empty content. -/
theorem c3_counterexample :
    processTable 100 200 c3Dets c3ErrCb = Except.error (ProcErr.ocr "boom") := by
  decide

/-- Claim C3, amended: only when the OCR callback never raises does
processing continue across all cells and tables; `process_table` with a
non-raising callback computes exactly the pure pipeline (empty-string OCR
results are kept as empty cell content), its sole remaining failure being
the renderer's `IndexError`. -/
theorem c3_amended {ε : Type} (w h : ℤ) (dets : List Det) (g : IntBox → String) :
    processTable w h dets (fun b => (Except.ok (g b) : Except ε String)) =
      (match processTablePure w h dets g with
       | some s => Except.ok s
       | none => Except.error ProcErr.render) := by
  unfold processTable processTablePure
  by_cases ht : detectTables (w:ℚ) (h:ℚ) dets = []
  · rw [if_pos ht, if_pos ht]
  · rw [if_neg ht, if_neg ht]
    have key : ∀ (tables : List (List TableCell)) (outs : List String),
        tables.foldl
          (fun (acc : Except (ProcErr ε) (List String)) cells =>
            match acc with
            | .error e => .error e
            | .ok outs =>
              match ocrCells w h (fun b => (Except.ok (g b) : Except ε String)) cells with
              | .error e => .error (.ocr e)
              | .ok cellsC =>
                if isFalsePositiveTable cellsC then .ok outs
                else
                  match buildLatex cellsC with
                  | none => .error .render
                  | some tex => .ok (outs ++ [tex]))
          (Except.ok outs) =
        (match tables.foldl
            (fun (acc : Option (List String)) cells =>
              match acc with
              | none => none
              | some outs =>
                let cellsC := ocrCellsPure w h g cells
                if isFalsePositiveTable cellsC then some outs
                else
                  match buildLatex cellsC with
                  | none => none
                  | some tex => some (outs ++ [tex]))
            (some outs) with
         | some o => Except.ok o
         | none => Except.error ProcErr.render) := by
      intro tables
      induction tables with
      | nil => intro outs; rfl
      | cons t ts ih =>
        intro outs
        rw [List.foldl_cons, List.foldl_cons, ocrCells_ok]
        cases hfp : isFalsePositiveTable (ocrCellsPure w h g t) with
        | true =>
          simp only [hfp, if_true]
          exact ih outs
        | false =>
          simp only [hfp, Bool.false_eq_true, if_false]
          cases hb : buildLatex (ocrCellsPure w h g t) with
          | none =>
            simp only [hb]
            rw [foldErr, foldNone]
          | some tex =>
            simp only [hb]
            exact ih (outs ++ [tex])
    rw [key]
    cases (detectTables (w:ℚ) (h:ℚ) dets).foldl _ (some []) with
    | none => rfl
    | some o => rfl

/-- Claim C4, counterexample: rows of height 10 with a vertical gap of 20 —
under the claimed `max(1.5 × height, 50)` rule the rows stay one cluster, but
the code splits them (it uses `or`, i.e. the **smaller** bound); the code's
regions are also full image width, not the cluster's padded union box. -/
theorem c4_counterexample :
    fallbackRegions 100 40 c4Rows = [⟨0, 0, 100, 20⟩, ⟨0, 20, 100, 40⟩] ∧
    fallbackRegionsSpec 100 40 c4Rows = [⟨0, 0, 100, 40⟩] := by
  decide

/-- Claim C4, amended: a new cluster starts exactly when the gap exceeds
`min(1.5 × previous row height, 50)` (the code's `gap > 1.5*h or gap > 50`),
and each cluster becomes a full-image-width region spanning the cluster's
vertical extent padded by 10px and clamped. -/
theorem c4_amended :
    (∀ rows : List Box, clusterRows rows = clusterRowsMin rows) ∧
    (∀ (w h : ℚ) (rows : List Box),
      fallbackRegions w h rows =
        (clusterRowsMin rows).map
          (fun cl => ⟨0, max 0 (clusterMinY cl - 10), w,
            min h (clusterMaxY cl + 10)⟩)) := by
  constructor
  · intro rows
    cases rows with
    | nil => rfl
    | cons r0 rest => exact clusterWalk_eq_min rest r0 [r0] []
  · intro w h rows
    unfold fallbackRegions
    cases rows with
    | nil => rfl
    | cons r0 rest =>
      simp only [clusterRows, clusterRowsMin]
      rw [clusterWalk_eq_min]

/-- Claim C5, counterexample: four lowercase cells plus one math-marked cell
in five columns — the claimed rule (math cells excluded from the denominator)
rejects the table (4/4 > 80%), but the code keeps it (the math cell counts
into `valid_cells_count`, giving 4/5 ≤ 80%). -/
theorem c5_counterexample :
    isFalsePositiveTable c5CexCells = false ∧
    isFalsePositiveTableClaim c5CexCells = true := by
  decide

/-- Claim C5, amended: the validator rejects a table exactly when (a) no cell
has non-empty content, or (b) among filled cells, the count with a math mark
**or** an alphabetic character is non-zero and more than 80% of that count
are math-free cells whose first alphabetic character is lowercase, or
(c) that count is non-zero, the 80% test fails, and the table has at most one
distinct column index and more than two distinct row indices. -/
theorem c5_amended (cells : List TableCell) :
    isFalsePositiveTable cells = isFalsePositiveTableAmended cells := by
  unfold isFalsePositiveTable isFalsePositiveTableAmended
  by_cases hc : cells = []
  · subst hc; rfl
  · rw [if_neg hc]
    by_cases hfe : cells.filter (fun c => !(c.content.isEmpty)) = []
    · rw [if_pos hfe]
      simp [hfe]
    · rw [if_neg hfe, fpCount_foldl]
      simp only [Nat.zero_add]
      set lower := (cells.filter (fun c => !(c.content.isEmpty))).countP
        (fun c => !(cellHasMathMark c) && cellFirstAlphaLower c) with hlo
      set valid := (cells.filter (fun c => !(c.content.isEmpty))).countP
        (fun c => cellHasMathMark c || cellHasAlpha c) with hva
      by_cases hv : valid = 0
      · simp [hv, hfe]
      · rw [if_neg hv]
        by_cases hr : (lower:ℚ)/(valid:ℚ) > 4/5
        · have h5 := (ratioIff lower valid hv).mp hr
          simp [hr, h5, hfe, hv]
        · have h5 : ¬ (5 * lower > 4 * valid) := fun h => hr ((ratioIff lower valid hv).mpr h)
          simp [hr, h5, hfe, hv]

/-- Claim C6, confirmed: (1) the paragraph-break decision of
`_merge_text_blocks` equals the spec's priority cascade for every pair of
blocks, previous buffer entry and current text — column change, else huge
vertical gap, else all-caps heading, else a trailing hyphen merges, else
break on a large gap (and, after sentence-ending punctuation, also on a
block-type change); and (2) on the claim's scenario — "Experimental" then
"Results" in same-column text blocks with a 2% vertical gap and no
sentence-ending punctuation — the assembler merges the two blocks into the
single paragraph "Experimental Results". -/
theorem c6_break_priority :
    (∀ (pb b : LayoutBlock) (pe : List Char) (ct : Option String),
      shouldBreakFlag pb b pe ct = shouldBreakSpec pb b pe ct) ∧
    mergeTextBlocks c6Contents [c6Block1, c6Block2] = [mkPara "Experimental Results"] := by
  constructor
  · intro pb b pe ct
    simp only [shouldBreakFlag, shouldBreakSpec]
    split_ifs <;> simp_all
  · decide

/-- Claim C7, counterexample: "THEOREM 2.1. For all x..." is retyped and
rendered in a `theorem` environment, but **no** label `[2.1]` is produced:
the unescaped `.` in `(:|.)` makes the lazy label group always empty, so the
claimed label parse never happens. -/
theorem c7_counterexample :
    (refineSemantics [c7Item1, c7Item2] 1).map (fun it => it.type) =
      ["theorem", "proof"] ∧
    renderTheoremItem "THEOREM 2.1. For all x..." =
      "\\begin\x7btheorem\x7d\n2.1. For all x...\n\\end\x7btheorem\x7d\n\n" ∧
    containsSub "[2.1]".data (renderTheoremItem "THEOREM 2.1. For all x...").data = false ∧
    renderProofItem "PROOF. Suppose..." =
      "\\begin\x7bproof\x7d\nSuppose...\n\\end\x7bproof\x7d\n\n" ∧
    renderTheoremItem "LEMMA 3. Something long enough..." =
      "\\begin\x7blemma\x7d\n3. Something long enough...\n\\end\x7blemma\x7d\n\n" := by
  decide

/-- Claim C7, amended: any item whose cleaned stripped text matches the
theorem/lemma marker at length above 10 and does not match a proof marker is
appended with final type `theorem` (never split, dropped or re-retyped) —
the label, however, is always empty (see the counterexample). -/
theorem c7_amended (p : Nat) (acc : List MItem) (it : MItem) (t : String)
    (htext : it.text = some t)
    (hth : theoremPatternMatch (cleanTextForCheck (pyStrip t.data)) = true)
    (hlen : (cleanTextForCheck (pyStrip t.data)).length > 10)
    (hpf : ¬(proofStartMatch (pyStrip t.data) = true ∨
      proofFullMatch (pyStrip t.data) = true)) :
    (refineStep p acc it).map (fun x => x.type) =
      acc.map (fun x => x.type) ++ ["theorem"] := by
  have hne : pyStrip t.data ≠ [] := by
    intro h
    rw [h] at hth
    exact absurd hth (by decide)
  have h4 : ∀ i3 : MItem,
      refineItem4 (cleanTextForCheck (pyStrip t.data)) i3 =
        { i3 with type := "theorem" } := by
    intro i3
    unfold refineItem4
    rw [if_pos (And.intro hth hlen)]
  unfold refineStep
  rw [htext]
  simp only [Option.getD_some]
  rw [if_neg (fun hcon => hne hcon.1)]
  rw [h4, refineItem5_id _ _ hpf, refineItem6_id _ (by simp),
    refineItem7_id _ _ (by simp), refineFinish_append _ _ _ _ (by simp) (by simp)]
  simp

/-- Claim C7, witness: the amended theorem at the scenario's item. -/
theorem c7_amended_witness :
    c7Item1.text = some "THEOREM 2.1. For all x..." ∧
    (refineStep 1 [] c7Item1).map (fun x => x.type) = ["theorem"] :=
  ⟨rfl, (c7_amended 1 [] c7Item1 "THEOREM 2.1. For all x..." rfl
    (by decide) (by decide) (by decide)).trans rfl⟩

/-- Claim C8, counterexample: "2.1 Background" has exactly **two**
dot-separated components in its leading token, yet it is classified
`section`, not `subsection`: the code requires `dot_count > 1`, i.e. at
least three components. -/
theorem c8_counterexample :
    (splitOnSubstr ['.'] (firstSpaceTok "2.1 Background".data)).length = 2 ∧
    classifyTextBlock c8Block "2.1 Background" = "section" := by
  decide

/-- Claim C8, amended: for an unlabeled block whose stripped text has no math
markers, an uppercase-or-digit start, a section-pattern match, length under
80 and no 1900–2099 year token, the classification is `subsection` exactly
when the text starts with a digit **and** the leading token contains more
than one dot (at least three components), and `section` otherwise. -/
theorem c8_amended (block : LayoutBlock) (t : String)
    (hlbl : block.raw_label = none)
    (hmath : ¬(t.data.contains '$' ∨ containsSub "\\[".data t.data ∨
      containsSub "\\(".data t.data))
    (hlow : (match pyStrip t.data with
      | c :: _ => c.isLower
      | [] => false) = false)
    (hsec : sectionRegexMatch (pyStrip t.data) = true)
    (hlen : (pyStrip t.data).length < 80)
    (hyear : yearMatch (pyStrip t.data) = false) :
    classifyTextBlock block t =
      (if ((match pyStrip t.data with
            | c :: _ => c.isDigit
            | [] => false) : Bool) &&
          decide ((firstSpaceTok (pyStrip t.data)).count '.' > 1)
       then "subsection" else "section") := by
  unfold classifyTextBlock
  rw [hlbl]
  simp only [strTruthy, Bool.false_eq_true, false_and, if_false, if_neg hmath,
    hlow, if_pos (And.intro hsec hlen), hyear, if_false]
  generalize (match pyStrip t.data with
    | c :: _ => c.isDigit
    | [] => false : Bool) = sd
  generalize (firstSpaceTok (pyStrip t.data)).count '.' = n
  cases sd <;> by_cases hn : n > 1 <;> simp [hn]

/-- Claim C8, witness: the amended theorem at the block and text of the
scenario, evaluating to `section`. -/
theorem c8_amended_witness :
    c8Block.raw_label = none ∧
    classifyTextBlock c8Block "2.1 Background" = "section" :=
  ⟨rfl, (c8_amended c8Block "2.1 Background" rfl (by decide) (by decide)
    (by decide) (by decide) (by decide)).trans (by decide)⟩

/-- Claim C9, counterexample: "va" contains no reserved character, yet the
escaper returns "và" — the Vietnamese OCR-fix pass rewrites it. Escaping is
**not** a no-op on all reserved-free strings. -/
theorem c9_counterexample :
    (∀ ch ∈ reservedChars, ch ∉ "va".data) ∧
    escapeLatexStr "va" = "và" ∧ ("và" : String) ≠ "va" := by
  decide

/-- Claim C9, amended: escaping is a no-op on a string that contains no
reserved character, is left unchanged by the Vietnamese OCR-fix pass, and
contains none of the internal placeholder tokens (`[[ITEM]]`,
`XYZSUPSTART`, `XYZSUPEND`, `XYZSUBSTART`, `XYZSUBEND`). -/
theorem c9_amended (s : List Char)
    (hres : ∀ c ∈ reservedChars, c ∉ s)
    (hvn : fixVietnamese s = s)
    (hitem : containsSub "[[ITEM]]".data s = false)
    (hm1 : containsSub "XYZSUPSTART".data s = false)
    (hm2 : containsSub "XYZSUPEND".data s = false)
    (hm3 : containsSub "XYZSUBSTART".data s = false)
    (hm4 : containsSub "XYZSUBEND".data s = false) :
    escapeLatex s = s := by
  have hlt : '<' ∉ s := hres '<' (by decide)
  have hdol : '$' ∉ s := hres '$' (by decide)
  have hbs : '\\' ∉ s := hres '\\' (by decide)
  have hamp : '&' ∉ s := hres '&' (by decide)
  have hsub : subSupPlaceholders s = s := by
    unfold subSupPlaceholders
    rw [subTagAux_no_lt _ _ _ _ s.length s hlt, subTagAux_no_lt _ _ _ _ s.length s hlt]
  have hpart : escapePart s = s := by
    simp only [escapePart]
    cases s with
    | nil => simp
    | cons c rest =>
      have hc1 : ¬(c = '<') := fun he => hlt (he ▸ List.mem_cons_self c rest)
      have hc2 : ¬(c = '$') := fun he => hdol (he ▸ List.mem_cons_self c rest)
      have hc3 : ¬(c = '\\') := fun he => hbs (he ▸ List.mem_cons_self c rest)
      have h1 : ("<math".data.isPrefixOf (c :: rest)) = false :=
        isPrefixOf_cons_neq '<' c "math".data rest hc1
      have h2 : ("\\(".data.isPrefixOf (c :: rest)) = false :=
        isPrefixOf_cons_neq '\\' c "(".data rest hc3
      rw [if_neg (by simp), if_neg (by
        intro hco
        rcases hco with hco | hco | hco
        · rw [h1] at hco; exact absurd hco (by simp)
        · exact hc2 (by simpa using hco)
        · rw [h2] at hco; exact absurd hco (by simp))]
      exact processRichText_id (c :: rest) hres
  have hnb : replaceSubstr "&nbsp;".data " ".data s = s :=
    replaceSubstr_not_mem_head '&' "nbsp;".data _ s hamp
  have hri : replaceSubstr "[[ITEM]]".data "\n\\item ".data s = s :=
    replaceSubstr_not_contains '[' "[ITEM]]".data _ s hitem
  have hr1 : replaceSubstr "XYZSUPSTART".data "\\textsuperscript\x7b".data s = s :=
    replaceSubstr_not_contains 'X' "YZSUPSTART".data _ s hm1
  have hr2 : replaceSubstr "XYZSUPEND".data "\x7d".data s = s :=
    replaceSubstr_not_contains 'X' "YZSUPEND".data _ s hm2
  have hr3 : replaceSubstr "XYZSUBSTART".data "\\textsubscript\x7b".data s = s :=
    replaceSubstr_not_contains 'X' "YZSUBSTART".data _ s hm3
  have hr4 : replaceSubstr "XYZSUBEND".data "\x7d".data s = s :=
    replaceSubstr_not_contains 'X' "YZSUBEND".data _ s hm4
  simp only [escapeLatex]
  rw [hsub, hnb, hvn, mathSplit, mathSplitAux_no_specials s.length [] s hlt hdol hbs]
  simp only [List.reverse_nil, List.nil_append, List.flatMap_cons, List.flatMap_nil,
    List.append_nil, hpart]
  rw [hri, hr1, hr2, hr3, hr4]

/-- Claim C9, witness: the amended theorem at a reserved-free plain string
the Vietnamese pass leaves alone. -/
theorem c9_amended_witness :
    (∀ ch ∈ reservedChars, ch ∉ "already escaped text".data) ∧
    escapeLatex "already escaped text".data = "already escaped text".data :=
  ⟨by decide,
    c9_amended "already escaped text".data (by decide) (by decide) (by decide)
      (by decide) (by decide) (by decide) (by decide)⟩

/-- Claim C10, code bug: the reconstructor can return a single spanning cell
with `row_idx = 0`, `row_span = 2`, so `row_idx + row_span = 2` exceeds
`max(row_idx) + 1 = 1`, the grid row allocation of `_build_latex`; the write
loop then indexes outside the grid (modelled as `buildLatex = none`) and
`process_table` raises `IndexError` instead of rendering. -/
theorem c10_bug_overflow :
    detectTables 100 20 c10Dets = [[c10Cell]] ∧
    c10Cell.row_idx + c10Cell.row_span = 2 ∧
    buildLatex [{ c10Cell with content := "X=1" }] = none ∧
    processTable 100 20 c10Dets
      (fun _ => (Except.ok "X=1" : Except Unit String)) =
      Except.error ProcErr.render := by
  decide

end HeySeen
